import Mathlib

/-!
Verification of the card-tapestry-value price/valuation logic.

The definitions below are a shallow embedding of the serverless handlers in
`supabase/functions/prices/index.ts` (the prices slice and the collections
slice it is bundled with).  Timestamps (`recorded_at`, ISO strings compared
through `new Date`) are modelled as integers ordered the same way, prices and
quantities (JS numbers) as rationals, and the day-based window arithmetic
(`setDate(getDate() - n)`) as subtraction of day counts.  The external
relational store is modelled as an in-memory table: each repository query is
rendered by its declarative meaning (filter, join, order).  JavaScript `Map`
objects are modelled as association lists with JS insertion-order semantics
(`mapSet` replaces in place, appends fresh keys).
-/

/-- A row of the `cards` table, keeping the fields the aggregation logic
reads (`id`, `name`, `game`, `set_name`). -/

structure CardInfo where
  id : String
  name : String
  game : String
  set_name : String
deriving Repr, DecidableEq

/-- A row of the `card_prices` table (`CardPrice` in the source). -/

structure CardPrice where
  id : String
  card_id : String
  condition : String
  price : ℚ
  currency : String
  source : Option String
  recorded_at : ℤ
deriving Repr, DecidableEq

/-- A joined price record (`CardPriceWithCard` in the source): a
`card_prices` row together with its `cards` row. -/

structure CardPriceWithCard where
  id : String
  card_id : String
  condition : String
  price : ℚ
  currency : String
  recorded_at : ℤ
  cards : CardInfo
deriving Repr, DecidableEq

/-- JS `Map.get`: first binding of the key, if any. -/

def mapLookup {α : Type} (m : List (String × α)) (k : String) : Option α :=
  match m with
  | [] => none
  | (k', v) :: rest => if k' = k then some v else mapLookup rest k

/-- JS `Map.set`: replace the binding in place if the key is present,
append it otherwise. -/

def mapSet {α : Type} (m : List (String × α)) (k : String) (v : α) :
    List (String × α) :=
  match m with
  | [] => [(k, v)]
  | (k', v') :: rest => if k' = k then (k, v) :: rest else (k', v') :: mapSet rest k v

/-- One step of the latest-price grouping in
`PriceRepository.getLatestPricesForCard`: keep the incoming record when its
condition is new or its timestamp is strictly later than the stored one. -/

def latestStep (m : List (String × CardPrice)) (price : CardPrice) :
    List (String × CardPrice) :=
  match mapLookup m price.condition with
  | none => mapSet m price.condition price
  | some existing =>
    if existing.recorded_at < price.recorded_at then mapSet m price.condition price
    else m

/-- `pickLater acc r`: the record the running fold keeps after seeing `r` —
`r` only displaces the stored record when strictly later (ties keep the
stored, i.e. earlier-encountered, record). -/

def pickLater (acc : Option CardPrice) (r : CardPrice) : Option CardPrice :=
  match acc with
  | none => some r
  | some v => if v.recorded_at < r.recorded_at then some r else some v

/-- The record the resolver retains for one condition: the first record in
traversal order attaining the maximum `recorded_at`. -/

def firstMax (l : List CardPrice) : Option CardPrice := l.foldl pickLater none

/-- The per-condition grouping of `PriceRepository.getLatestPricesForCard`:
fold the records through `latestStep` and list the retained values in key
insertion order (`Array.from(latestPrices.values())`). -/

def latestByCondition (data : List CardPrice) : List CardPrice :=
  (data.foldl latestStep []).map Prod.snd

/-- Input records for the C4 witness: two `mint` observations and one
`damaged` observation for one card. -/

def histD4 : List CardPrice :=
  [⟨"p1", "c1", "mint", 10, "EUR", none, 1⟩,
   ⟨"p2", "c1", "mint", 12, "EUR", none, 5⟩,
   ⟨"p3", "c1", "damaged", 3, "EUR", none, 2⟩]

/-- First record of the C2 tie counterexample. -/

def tieRecA : CardPrice := ⟨"a", "card1", "near_mint", 10, "EUR", none, 5⟩

/-- Second record of the C2 tie counterexample: same condition, same
`recorded_at`, different id and price. -/

def tieRecB : CardPrice := ⟨"b", "card1", "near_mint", 20, "EUR", none, 5⟩

/-- Ascending `recorded_at` order (`.order('recorded_at', { ascending: true })`). -/

def tsAsc (a b : CardPrice) : Prop := a.recorded_at ≤ b.recorded_at

instance : DecidableRel tsAsc :=
  fun a b => inferInstanceAs (Decidable (a.recorded_at ≤ b.recorded_at))

instance : IsTotal CardPrice tsAsc := ⟨fun a b => Int.le_total a.recorded_at b.recorded_at⟩

instance : IsTrans CardPrice tsAsc := ⟨fun _ _ _ h h' => le_trans h h'⟩

/-- Descending `recorded_at` order (`.order('recorded_at', { ascending: false })`). -/

def tsDesc (a b : CardPrice) : Prop := b.recorded_at ≤ a.recorded_at

instance : DecidableRel tsDesc :=
  fun a b => inferInstanceAs (Decidable (b.recorded_at ≤ a.recorded_at))

instance : IsTotal CardPrice tsDesc := ⟨fun a b => Int.le_total b.recorded_at a.recorded_at⟩

instance : IsTrans CardPrice tsDesc := ⟨fun _ _ _ h h' => le_trans h' h⟩

/-- The cutoff used by `PriceRepository.getPriceHistory`:
`cutoffDate.setDate(cutoffDate.getDate() - days)`, i.e. `now` minus the
requested day count (which may be zero or negative). -/

def cutoffDate (now days : ℤ) : ℤ := now - days

/-- `PriceRepository.getPriceHistory`: rows of `card_prices` matching the
card and condition with `recorded_at >= cutoff`, ordered ascending. -/

def PriceRepository.getPriceHistory (now : ℤ) (table : List CardPrice)
    (cardId condition : String) (days : ℤ) : List CardPrice :=
  List.insertionSort tsAsc (table.filter
    (fun r => r.card_id == cardId && r.condition == condition &&
      decide (cutoffDate now days ≤ r.recorded_at)))

/-- `PriceRepository.getLatestPricesForCard`: the card's rows ordered
newest-first, grouped to the latest record per condition. -/

def PriceRepository.getLatestPricesForCard (table : List CardPrice)
    (cardId : String) : List CardPrice :=
  latestByCondition (List.insertionSort tsDesc
    (table.filter (fun r => r.card_id == cardId)))

/-- One point of a history response (`PriceHistory.prices` element). -/

structure PricePoint where
  price : ℚ
  currency : String
  source : Option String
  recorded_at : ℤ
deriving Repr, DecidableEq

/-- The `PriceHistory` response shape. -/

structure PriceHistory where
  card_id : String
  condition : String
  prices : List PricePoint
deriving Repr, DecidableEq

/-- The six valid card conditions (`validConditions` in the source). -/

def validConditions : List String :=
  ["mint", "near_mint", "light_play", "moderate_play", "heavy_play", "damaged"]

/-- The valid games (`validGames` in the source). -/

def validGames : List String := ["yugioh", "mtg", "pokemon"]

/-- The valid currencies (`validCurrencies` in the source). -/

def validCurrencies : List String := ["EUR", "USD", "GBP", "JPY"]

/-- Projection of a `card_prices` row to a history point. -/

def toPricePoint (p : CardPrice) : PricePoint :=
  ⟨p.price, p.currency, p.source, p.recorded_at⟩

/-- `PriceService.getPriceHistory`: required-parameter check, 365-day cap,
condition-enum check, then the repository query. -/

def PriceService.getPriceHistory (now : ℤ) (table : List CardPrice)
    (cardId condition : String) (days : ℤ) : Except String PriceHistory :=
  if cardId = "" ∨ condition = "" then
    .error "Card ID and condition are required"
  else if 365 < days then
    .error "Cannot fetch price history for more than 365 days"
  else if condition ∉ validConditions then
    .error "Invalid card condition"
  else
    .ok ⟨cardId, condition,
      (PriceRepository.getPriceHistory now table cardId condition days).map toPricePoint⟩

/-- Table for the C6 witness: one in-window and one out-of-window record. -/

def histC6w : List CardPrice :=
  [⟨"q1", "c", "mint", 7, "EUR", none, 5⟩,
   ⟨"q2", "c", "mint", 9, "EUR", none, -100⟩]

/-- Table for the C10 counterexample: a single record stamped exactly at
`now` (so nothing is future-dated). -/

def histC10 : List CardPrice := [⟨"p1", "c", "mint", 10, "EUR", none, 0⟩]

/-- Table for the C10 witness: one past-dated record. -/

def histC10w : List CardPrice := [⟨"q3", "c", "mint", 7, "EUR", none, -3⟩]

/-- The grouping key of the gainers computation:
`` `${priceRecord.card_id}-${priceRecord.condition}` ``. -/

def priceKey (r : CardPriceWithCard) : String := r.card_id ++ "-" ++ r.condition

/-- The per-key accumulator of `PriceRepository.getTopGainers`
(`cardPriceChanges` map values). -/

structure ChangeEntry where
  card : CardInfo
  currentPrice : ℚ
  previousPrice : ℚ
  change : ℚ
  changePercent : ℚ
deriving Repr, DecidableEq

/-- The bucketing step applied to one scanned record: the first record seen
in `[now-7d, ∞)` fills `currentPrice` (the `=== 0` guard), otherwise the
first record seen in `[now-14d, now-7d)` fills `previousPrice`. -/

def updateEntry (now : ℤ) (r : CardPriceWithCard) (e : ChangeEntry) : ChangeEntry :=
  if now - 7 ≤ r.recorded_at ∧ e.currentPrice = 0 then
    { e with currentPrice := r.price }
  else if r.recorded_at < now - 7 ∧ now - 14 ≤ r.recorded_at ∧ e.previousPrice = 0 then
    { e with previousPrice := r.price }
  else e

/-- One iteration of the `data.forEach` loop of `getTopGainers`: create the
key's entry (carrying the record's `cards` join) if absent, then apply the
bucketing step. -/

def gainStep (now : ℤ) (m : List (String × ChangeEntry)) (r : CardPriceWithCard) :
    List (String × ChangeEntry) :=
  match mapLookup m (priceKey r) with
  | none => mapSet m (priceKey r) (updateEntry now r ⟨r.cards, 0, 0, 0, 0⟩)
  | some e => mapSet m (priceKey r) (updateEntry now r e)

/-- The `cardPriceChanges` map after scanning all records. -/

def gainMap (now : ℤ) (data : List CardPriceWithCard) :
    List (String × ChangeEntry) :=
  data.foldl (gainStep now) []

/-- The `.map` stage of `getTopGainers`: fill in
`change = current - previous` and `changePercent = change / previous * 100`. -/

def mkChange (e : ChangeEntry) : ChangeEntry :=
  { e with change := e.currentPrice - e.previousPrice,
           changePercent := (e.currentPrice - e.previousPrice) / e.previousPrice * 100 }

/-- The gainers list before sorting: map values filtered to those with both
bucket prices > 0, with the change fields computed. -/

def topGainerCandidates (now : ℤ) (data : List CardPriceWithCard) :
    List ChangeEntry :=
  (((gainMap now data).map Prod.snd).filter
    (fun e => decide (0 < e.currentPrice) && decide (0 < e.previousPrice))).map mkChange

/-- Descending `changePercent` order
(`.sort((a, b) => b.changePercent - a.changePercent)`). -/

def gainDesc (a b : ChangeEntry) : Prop := b.changePercent ≤ a.changePercent

instance : DecidableRel gainDesc :=
  fun a b => inferInstanceAs (Decidable (b.changePercent ≤ a.changePercent))

instance : IsTotal ChangeEntry gainDesc := ⟨fun a b => le_total b.changePercent a.changePercent⟩

instance : IsTrans ChangeEntry gainDesc := ⟨fun _ _ _ h h' => le_trans h' h⟩

/-- The ranked gainers list (after the sort, before the slice). -/

def topGainerEntries (now : ℤ) (data : List CardPriceWithCard) :
    List ChangeEntry :=
  List.insertionSort gainDesc (topGainerCandidates now data)

/-- JS `Array.prototype.slice(0, limit)`: a non-negative end index takes a
prefix; a negative end index counts from the end of the array. -/

def jsSliceTo {α : Type} (limit : ℤ) (l : List α) : List α :=
  if 0 ≤ limit then l.take limit.toNat else l.take (l.length - (-limit).toNat)

/-- The final output shape of one gainer: empty id, the card's id, the
constant condition `'near_mint'`, the resolved current price, the fixed
currency `'EUR'`, and the computation time as `recorded_at`. -/

def gainOutput (now : ℤ) (e : ChangeEntry) : CardPriceWithCard :=
  ⟨"", e.card.id, "near_mint", e.currentPrice, "EUR", now, e.card⟩

/-- Descending `recorded_at` order on joined records. -/

def gainRecDesc (a b : CardPriceWithCard) : Prop := b.recorded_at ≤ a.recorded_at

instance : DecidableRel gainRecDesc :=
  fun a b => inferInstanceAs (Decidable (b.recorded_at ≤ a.recorded_at))

instance : IsTotal CardPriceWithCard gainRecDesc :=
  ⟨fun a b => Int.le_total b.recorded_at a.recorded_at⟩

instance : IsTrans CardPriceWithCard gainRecDesc := ⟨fun _ _ _ h h' => le_trans h' h⟩

/-- The `cards!inner (*)` join: a price row paired with its card, dropped
when the card is absent. -/

def joinCard (cards : List CardInfo) (p : CardPrice) : Option CardPriceWithCard :=
  (cards.find? (fun c => c.id == p.card_id)).map
    (fun c => ⟨p.id, p.card_id, p.condition, p.price, p.currency, p.recorded_at, c⟩)

/-- The optional `cards.game` filter of the gainers query. -/

def gameMatches (game : Option String) (r : CardPriceWithCard) : Bool :=
  match game with
  | none => true
  | some g => r.cards.game == g

/-- The gainers query: prices of the last 14 days joined with cards,
optionally filtered by game, ordered newest-first. -/

def queryGainRecs (now : ℤ) (prices : List CardPrice) (cards : List CardInfo)
    (game : Option String) : List CardPriceWithCard :=
  List.insertionSort gainRecDesc
    (((prices.filter (fun p => decide (now - 14 ≤ p.recorded_at))).filterMap
      (joinCard cards)).filter (gameMatches game))

/-- `PriceRepository.getTopGainers`: scan the queried records, bucket into
current/previous prices per key, filter, rank, slice, and shape the output. -/

def PriceRepository.getTopGainers (now : ℤ) (prices : List CardPrice)
    (cards : List CardInfo) (game : Option String) (limit : ℤ) :
    List CardPriceWithCard :=
  let data := queryGainRecs now prices cards game
  if data.isEmpty then []
  else (jsSliceTo limit (topGainerEntries now data)).map (gainOutput now)

/-- The `if (game && !validGames.includes(game))` guard. -/

def gameValid (game : Option String) : Prop :=
  match game with
  | none => True
  | some g => g ∈ validGames

instance : ∀ game, Decidable (gameValid game) := fun game =>
  match game with
  | none => inferInstanceAs (Decidable True)
  | some g => inferInstanceAs (Decidable (g ∈ validGames))

/-- `PriceService.getTopGainers`: game-enum check, 50-cap check, then the
repository computation. -/

def PriceService.getTopGainers (now : ℤ) (prices : List CardPrice)
    (cards : List CardInfo) (game : Option String) (limit : ℤ) :
    Except String (List CardPriceWithCard) :=
  if ¬ gameValid game then .error "Invalid game type"
  else if 50 < limit then .error "Limit cannot exceed 50"
  else .ok (PriceRepository.getTopGainers now prices cards game limit)

/-- The claim's "current" reference point: the first record, in scan order,
whose timestamp lies within `[now - 7, now]`, among the records of key `k`. -/

def specCurrent (now : ℤ) (data : List CardPriceWithCard) (k : String) :
    Option CardPriceWithCard :=
  (data.filter (fun r => priceKey r == k)).find?
    (fun r => decide (now - 7 ≤ r.recorded_at) && decide (r.recorded_at ≤ now))

/-- The claim's "previous" reference point: the first record, in scan order,
whose timestamp lies within `[now - 14, now - 7)`, among the records of key
`k`. -/

def specPrevious (now : ℤ) (data : List CardPriceWithCard) (k : String) :
    Option CardPriceWithCard :=
  (data.filter (fun r => priceKey r == k)).find?
    (fun r => decide (now - 14 ≤ r.recorded_at) && decide (r.recorded_at < now - 7))

/-- The price of an optional record, zero when absent. -/

def priceOfOpt (o : Option CardPriceWithCard) : ℚ :=
  match o with
  | some r => r.price
  | none => 0

/-- The entry produced for one key from its filtered record list: `none`
when the key never occurs, otherwise the fold of the bucketing step starting
from the zero entry created at the first occurrence. -/

def gainRun (now : ℤ) : List CardPriceWithCard → Option ChangeEntry
  | [] => none
  | r :: rs =>
    some (rs.foldl (fun e r => updateEntry now r e)
      (updateEntry now r ⟨r.cards, 0, 0, 0, 0⟩))

/-- Card used by the gainers witnesses. -/

def gainCard1 : CardInfo := ⟨"card1", "Blue-Eyes White Dragon", "yugioh", "LOB"⟩

/-- Scanned record set for the C1 witness (`now` = 20): one key with a
record at day 19 priced 110 (current bucket) and a record at day 10 priced
100 (previous bucket), newest first. -/

def gainD1 : List CardPriceWithCard :=
  [⟨"g1", "card1", "near_mint", 110, "EUR", 19, gainCard1⟩,
   ⟨"g2", "card1", "near_mint", 100, "EUR", 10, gainCard1⟩]

/-- Price table for the gainers witnesses: one `near_mint` observation in
each bucket (`now` = 20). -/

def gainPrices1 : List CardPrice :=
  [⟨"g1", "card1", "near_mint", 110, "EUR", none, 19⟩,
   ⟨"g2", "card1", "near_mint", 100, "EUR", none, 10⟩]

/-- Cards table for the gainers witnesses. -/

def gainCards1 : List CardInfo := [gainCard1]

/-- The price fields embedded per joined row in the stats query
(`card_prices (price, recorded_at)`). -/

structure PriceRef where
  price : ℚ
  recorded_at : ℤ
deriving Repr, DecidableEq

/-- One row of the stats join (`user_collections` with its `cards` row and
an attached `card_prices` record).  The store contract — one row per
collection entry, carrying the entry's resolved price record — is the
relational store's side of the query, per the spec's description of the
data-access layer. -/

structure CollectionItem where
  id : String
  card_id : String
  condition : String
  quantity : ℚ
  cards : CardInfo
  card_prices : PriceRef
deriving Repr, DecidableEq

/-- The stats grouping key `` `${item.card_id}-${item.condition}` ``. -/

def itemKey (i : CollectionItem) : String := i.card_id ++ "-" ++ i.condition

/-- One step of the `cardPriceMap` fold in
`CollectionRepository.getCollectionStats`: keep the attached price record
with the strictly later `recorded_at`. -/

def statsPriceStep (m : List (String × PriceRef)) (item : CollectionItem) :
    List (String × PriceRef) :=
  match mapLookup m (itemKey item) with
  | none => mapSet m (itemKey item) item.card_prices
  | some existing =>
    if existing.recorded_at < item.card_prices.recorded_at then
      mapSet m (itemKey item) item.card_prices
    else m

/-- The `topGainer` aggregate field. -/

structure TopGainerStat where
  name : String
  change : ℚ
deriving Repr, DecidableEq

/-- The stats response shape. -/

structure CollectionStats where
  totalCards : ℕ
  totalValue : ℚ
  topGainer : TopGainerStat
  rarest : String
deriving Repr, DecidableEq

/-- The price resolved for an item's key, `0` when absent
(`cardPriceMap.get(...)?.price || 0` in the rarity comparator). -/

def statsPriceOf (m : List (String × PriceRef)) (i : CollectionItem) : ℚ :=
  match mapLookup m (itemKey i) with
  | some p => p.price
  | none => 0

/-- Descending order by resolved price, used to pick the rarest card. -/

def rarestOrder (m : List (String × PriceRef)) (a b : CollectionItem) : Prop :=
  statsPriceOf m b ≤ statsPriceOf m a

instance (m : List (String × PriceRef)) : DecidableRel (rarestOrder m) :=
  fun a b => inferInstanceAs (Decidable (statsPriceOf m b ≤ statsPriceOf m a))

instance (m : List (String × PriceRef)) : IsTotal CollectionItem (rarestOrder m) :=
  ⟨fun a b => le_total (statsPriceOf m b) (statsPriceOf m a)⟩

instance (m : List (String × PriceRef)) : IsTrans CollectionItem (rarestOrder m) :=
  ⟨fun _ _ _ h h' => le_trans h' h⟩

/-- `CollectionRepository.getCollectionStats`: the head-count query result
(`totalCards`, modelled as the user's entry list), and the joined rows
(`collections`) from which the totals and the rarest label are computed; the
`topGainer` field is the hardcoded placeholder. -/

def CollectionRepository.getCollectionStats (entries : List CollectionItem)
    (collections : List CollectionItem) : CollectionStats :=
  let totalCards := entries.length
  if collections.isEmpty then
    ⟨totalCards, 0, ⟨"Dark Magician", 8.2⟩, "No cards"⟩
  else
    let cardPriceMap := collections.foldl statsPriceStep []
    let totalValue := collections.foldl (fun acc item =>
      match mapLookup cardPriceMap (itemKey item) with
      | some latestPrice => acc + latestPrice.price * item.quantity
      | none => acc) 0
    let sorted := List.insertionSort (rarestOrder cardPriceMap) collections
    let rarestCard := match sorted with
      | [] => ""
      | top :: _ => top.cards.name ++ " (" ++ top.cards.set_name ++ ")"
    ⟨totalCards, totalValue, ⟨"Dark Magician", 8.2⟩,
      if rarestCard = "" then "No cards" else rarestCard⟩

/-- Entry A of the C5 witness: quantity 2, latest price 10. -/

def entryA : CollectionItem :=
  ⟨"e1", "cardA", "near_mint", 2, ⟨"cardA", "Card A", "yugioh", "S1"⟩, ⟨10, 5⟩⟩

/-- Entry B of the C5 witness: quantity 1, latest price 50. -/

def entryB : CollectionItem :=
  ⟨"e2", "cardB", "near_mint", 1, ⟨"cardB", "Card B", "yugioh", "S2"⟩, ⟨50, 6⟩⟩

/-- `PriceService.getCardPrices`: require a card id, then resolve the
latest price per condition. -/

def PriceService.getCardPrices (table : List CardPrice) (cardId : String) :
    Except String (List CardPrice) :=
  if cardId = "" then .error "Card ID is required"
  else .ok (PriceRepository.getLatestPricesForCard table cardId)

/-- The POST body of the prices endpoint (`priceData`). -/

structure AddPriceBody where
  card_id : String
  condition : String
  price : ℚ
  currency : Option String
  source : Option String
deriving Repr, DecidableEq

/-- `PriceService.addPrice`: required-field, positivity, condition and
currency checks; the repository insert is modelled as returning the stored
row with a server-assigned id and the insertion time. -/

def PriceService.addPrice (now : ℤ) (b : AddPriceBody) : Except String CardPrice :=
  let currency := b.currency.getD "EUR"
  if b.card_id = "" ∨ b.condition = "" then
    .error "Card ID and condition are required"
  else if b.price ≤ 0 then
    .error "Price must be greater than 0"
  else if b.condition ∉ validConditions then
    .error "Invalid card condition"
  else if currency ∉ validCurrencies then
    .error "Invalid currency"
  else
    .ok ⟨"new", b.card_id, b.condition, b.price, currency, b.source, now⟩

/-- The PUT body of the prices endpoint (`Partial<CardPrice>` updates). -/

structure UpdatePriceBody where
  price : Option ℚ
deriving Repr, DecidableEq

/-- The repository update (`.update(...).eq('id', ...).single()`):
modelled over the table, failing like the store does when no row matches. -/

def PriceRepository.updatePrice (table : List CardPrice) (priceId : String)
    (b : UpdatePriceBody) : Except String CardPrice :=
  match table.find? (fun r => r.id == priceId) with
  | none => .error "Row not found"
  | some r => .ok { r with price := b.price.getD r.price }

/-- `PriceService.updatePrice`: require an id, reject a non-positive price
update, then the repository update. -/

def PriceService.updatePrice (table : List CardPrice) (priceId : String)
    (b : UpdatePriceBody) : Except String CardPrice :=
  if priceId = "" then .error "Price ID is required"
  else
    match b.price with
    | some p =>
      if p ≤ 0 then .error "Price must be greater than 0"
      else PriceRepository.updatePrice table priceId b
    | none => PriceRepository.updatePrice table priceId b

/-- `PriceService.deletePrice`: require an id; the store delete succeeds
regardless of matches. -/

def PriceService.deletePrice (priceId : String) : Except String Unit :=
  if priceId = "" then .error "Price ID is required"
  else .ok ()

/-- A row of the `cards` table as the cards endpoint reads it (`Card` in
`cards/index.ts`).  Optional text fields that only flow through the logic
are modelled as plain strings (absent = `""`); fields the logic never reads
(`rarity`, `image_url`, `description`, timestamps) are omitted. -/
structure CardRow where
  id : String
  name : String
  game : String
  set_name : String
  card_number : String
deriving Repr, DecidableEq

/-- The store's `ILIKE '%pattern%'` match: case-insensitive substring. -/
def ilike (s pattern : String) : Bool :=
  s.toLower.toList.tails.any (fun t => pattern.toLower.toList.isPrefixOf t)

/-- Ascending name order (`.order('name', { ascending: true })`). -/
def nameAsc (a b : CardRow) : Prop := a.name ≤ b.name

instance : DecidableRel nameAsc :=
  fun a b => inferInstanceAs (Decidable (a.name ≤ b.name))

instance : IsTotal CardRow nameAsc := ⟨fun a b => le_total a.name b.name⟩

instance : IsTrans CardRow nameAsc := ⟨fun _ _ _ h h' => le_trans h h'⟩

/-- Ascending card-number order (`.order('card_number', ...)`). -/
def cardNumAsc (a b : CardRow) : Prop := a.card_number ≤ b.card_number

instance : DecidableRel cardNumAsc :=
  fun a b => inferInstanceAs (Decidable (a.card_number ≤ b.card_number))

instance : IsTotal CardRow cardNumAsc := ⟨fun a b => le_total a.card_number b.card_number⟩

instance : IsTrans CardRow cardNumAsc := ⟨fun _ _ _ h h' => le_trans h h'⟩

/-- The optional `game` equality filter of the cards queries. -/
def gameFilterRow (game : Option String) (c : CardRow) : Bool :=
  match game with
  | none => true
  | some g => c.game == g

/-- The optional `ilike('name', '%search%')` filter. -/
def searchFilterRow (search : Option String) (c : CardRow) : Bool :=
  match search with
  | none => true
  | some s => ilike c.name s

/-- `CardRepository.getAllCards`: filtered, name-ordered rows restricted to
the requested range (`range(offset, offset + limit - 1)`). -/
def CardRepository.getAllCards (table : List CardRow) (game search : Option String)
    (limit offset : ℤ) : List CardRow :=
  ((List.insertionSort nameAsc
    ((table.filter (gameFilterRow game)).filter (searchFilterRow search))).drop
      offset.toNat).take limit.toNat

/-- `CardRepository.getCardById` (`.single()`, null on `PGRST116`). -/
def CardRepository.getCardById (table : List CardRow) (cardId : String) :
    Option CardRow :=
  table.find? (fun c => c.id == cardId)

/-- A card together with price fields, used both for the rows of the
`cards` × `card_prices` inner join and for the `CardWithLatestPrice` output
(whose `latest_price` carries the same four price fields). -/
structure CardWithLatestPrice where
  card : CardRow
  price : ℚ
  condition : String
  currency : String
  recorded_at : ℤ
deriving Repr, DecidableEq

/-- Descending `recorded_at` order on joined card/price rows. -/
def cardJoinDesc (a b : CardWithLatestPrice) : Prop := b.recorded_at ≤ a.recorded_at

instance : DecidableRel cardJoinDesc :=
  fun a b => inferInstanceAs (Decidable (b.recorded_at ≤ a.recorded_at))

instance : IsTotal CardWithLatestPrice cardJoinDesc :=
  ⟨fun a b => Int.le_total b.recorded_at a.recorded_at⟩

instance : IsTrans CardWithLatestPrice cardJoinDesc := ⟨fun _ _ _ h h' => le_trans h' h⟩

/-- Ascending card-name order on joined card/price rows. -/
def cardJoinNameAsc (a b : CardWithLatestPrice) : Prop := a.card.name ≤ b.card.name

instance : DecidableRel cardJoinNameAsc :=
  fun a b => inferInstanceAs (Decidable (a.card.name ≤ b.card.name))

instance : IsTotal CardWithLatestPrice cardJoinNameAsc :=
  ⟨fun a b => le_total a.card.name b.card.name⟩

instance : IsTrans CardWithLatestPrice cardJoinNameAsc := ⟨fun _ _ _ h h' => le_trans h h'⟩

/-- `CardRepository.getCardsWithLatestPrices`: the `card_prices!inner` join
(one row per card/price pair — the store's side of the embedded select, as
in the stats query), filtered, ordered by name with prices newest-first,
limited, then grouped by the `cardMap` fold keeping the strictly-latest
price per card id. -/
def CardRepository.getCardsWithLatestPrices (table : List CardRow)
    (prices : List CardPrice) (game search : Option String) (limit : ℤ) :
    List CardWithLatestPrice :=
  let rows := (prices.filterMap (fun p =>
    (table.find? (fun c => c.id == p.card_id)).map
      (fun c => (⟨c, p.price, p.condition, p.currency, p.recorded_at⟩ :
        CardWithLatestPrice)))).filter
    (fun r => gameFilterRow game r.card && searchFilterRow search r.card)
  let sorted := (List.insertionSort cardJoinNameAsc
    (List.insertionSort cardJoinDesc rows)).take limit.toNat
  (sorted.foldl (fun m item =>
    match mapLookup m item.card.id with
    | none => mapSet m item.card.id item
    | some existing =>
      if existing.recorded_at < item.recorded_at then mapSet m item.card.id item
      else m) []).map Prod.snd

/-- `CardRepository.searchCardsBySet`: `ilike` on the set name, optional
game filter, ordered by card number. -/
def CardRepository.searchCardsBySet (table : List CardRow) (setName : String)
    (game : Option String) : List CardRow :=
  List.insertionSort cardNumAsc
    ((table.filter (fun c => ilike c.set_name setName)).filter (gameFilterRow game))

/-- `CardService.getCards`: game-enum check, 100-cap check, then either the
priced or the plain listing. -/
def CardService.getCards (table : List CardRow) (prices : List CardPrice)
    (game search : Option String) (includePrices : Bool) (limit offset : ℤ) :
    Except String (List CardRow ⊕ List CardWithLatestPrice) :=
  if ¬ gameValid game then
    .error "Invalid game type. Must be one of: yugioh, mtg, pokemon"
  else if 100 < limit then .error "Limit cannot exceed 100 cards"
  else if includePrices then
    .ok (.inr (CardRepository.getCardsWithLatestPrices table prices game search limit))
  else .ok (.inl (CardRepository.getAllCards table game search limit offset))

/-- `CardService.getCardById`: require an id; a missing row becomes the
`Card not found` error. -/
def CardService.getCardById (table : List CardRow) (cardId : String) :
    Except String CardRow :=
  if cardId = "" then .error "Card ID is required"
  else
    match CardRepository.getCardById table cardId with
    | none => .error "Card not found"
    | some c => .ok c

/-- JS `String.prototype.trim`: strip leading and trailing whitespace
(executable over the character list). -/
def strTrim (s : String) : String :=
  ⟨((s.toList.dropWhile Char.isWhitespace).reverse.dropWhile
    Char.isWhitespace).reverse⟩

/-- `CardService.searchCardsBySet`: a trimmed set name shorter than two
characters (which covers a missing name) is rejected. -/
def CardService.searchCardsBySet (table : List CardRow) (setName : String)
    (game : Option String) : Except String (List CardRow) :=
  if (strTrim setName).length < 2 then
    .error "Set name must be at least 2 characters long"
  else .ok (CardRepository.searchCardsBySet table (strTrim setName) game)

/-- The POST body of the cards endpoint. -/
structure CreateCardBody where
  name : String
  game : String
  set_name : Option String
  card_number : Option String
deriving Repr, DecidableEq

/-- `CardService.createCard`: name-presence and game-enum checks; the
insert is modelled as returning the stored row. -/
def CardService.createCard (b : CreateCardBody) : Except String CardRow :=
  if strTrim b.name = "" then .error "Card name is required"
  else if b.game ∉ validGames then .error "Invalid game type"
  else .ok ⟨"new", strTrim b.name, b.game, b.set_name.getD "",
    b.card_number.getD ""⟩

/-- The PUT body of the cards endpoint (`Partial<Card>`). -/
structure UpdateCardBody where
  name : Option String
  game : Option String
  set_name : Option String
  card_number : Option String
deriving Repr, DecidableEq

/-- The cards-row update, modelled over the table like the store's
`.update(...).eq('id', ...).single()`. -/
def CardRepository.updateCard (table : List CardRow) (cardId : String)
    (b : UpdateCardBody) : Except String CardRow :=
  match table.find? (fun c => c.id == cardId) with
  | none => .error "Row not found"
  | some c =>
    .ok { c with name := b.name.getD c.name, game := b.game.getD c.game,
                 set_name := b.set_name.getD c.set_name,
                 card_number := b.card_number.getD c.card_number }

/-- `CardService.updateCard`: require an id, fetch-then-mutate (propagating
`Card not found`), then the update. -/
def CardService.updateCard (table : List CardRow) (cardId : String)
    (b : UpdateCardBody) : Except String CardRow :=
  if cardId = "" then .error "Card ID is required"
  else
    match CardService.getCardById table cardId with
    | .error msg => .error msg
    | .ok _ => CardRepository.updateCard table cardId b

/-- `CardService.deleteCard`: require an id, fetch-then-mutate. -/
def CardService.deleteCard (table : List CardRow) (cardId : String) :
    Except String Unit :=
  if cardId = "" then .error "Card ID is required"
  else
    match CardService.getCardById table cardId with
    | .error msg => .error msg
    | .ok _ => .ok ()

/-- A row of the `user_collections` table (`UserCollection` in the
source). -/
structure UserCollection where
  id : String
  user_id : String
  card_id : String
  condition : String
  quantity : ℚ
  purchase_price : Option ℚ
  notes : Option String
  created_at : ℤ
  updated_at : ℤ
deriving Repr, DecidableEq

/-- A collection row joined with its card (`CollectionWithCard`). -/
structure CollectionWithCard where
  id : String
  user_id : String
  card_id : String
  condition : String
  quantity : ℚ
  purchase_price : Option ℚ
  notes : Option String
  created_at : ℤ
  cards : CardInfo
deriving Repr, DecidableEq

/-- Descending `created_at` order. -/
def createdDesc (a b : CollectionWithCard) : Prop := b.created_at ≤ a.created_at

instance : DecidableRel createdDesc :=
  fun a b => inferInstanceAs (Decidable (b.created_at ≤ a.created_at))

instance : IsTotal CollectionWithCard createdDesc :=
  ⟨fun a b => Int.le_total b.created_at a.created_at⟩

instance : IsTrans CollectionWithCard createdDesc := ⟨fun _ _ _ h h' => le_trans h' h⟩

/-- The `cards (*)` embed of the collections listing. -/
def joinCollectionCard (cards : List CardInfo) (r : UserCollection) :
    Option CollectionWithCard :=
  (cards.find? (fun c => c.id == r.card_id)).map
    (fun c => ⟨r.id, r.user_id, r.card_id, r.condition, r.quantity,
      r.purchase_price, r.notes, r.created_at, c⟩)

/-- `CollectionRepository.getUserCollections`: the user's rows with their
cards, newest-created first. -/
def CollectionRepository.getUserCollections (cards : List CardInfo)
    (table : List UserCollection) (userId : String) : List CollectionWithCard :=
  List.insertionSort createdDesc
    ((table.filter (fun r => r.user_id == userId)).filterMap
      (joinCollectionCard cards))

/-- `CollectionService.getUserCollections`. -/
def CollectionService.getUserCollections (cards : List CardInfo)
    (table : List UserCollection) (userId : String) :
    Except String (List CollectionWithCard) :=
  if userId = "" then .error "User ID is required"
  else .ok (CollectionRepository.getUserCollections cards table userId)

/-- The POST body of the collections endpoint. -/
structure AddCollectionBody where
  card_id : String
  condition : String
  quantity : ℚ
  purchase_price : Option ℚ
  notes : Option String
deriving Repr, DecidableEq

/-- `CollectionService.addCardToCollection`: required ids, positive
quantity, condition enum; the insert is modelled as returning the stored
row. -/
def CollectionService.addCardToCollection (now : ℤ) (userId : String)
    (b : AddCollectionBody) : Except String UserCollection :=
  if userId = "" ∨ b.card_id = "" then
    .error "User ID and Card ID are required"
  else if b.quantity ≤ 0 then .error "Quantity must be greater than 0"
  else if b.condition ∉ validConditions then .error "Invalid card condition"
  else
    .ok ⟨"new", userId, b.card_id, b.condition, b.quantity, b.purchase_price,
      b.notes, now, now⟩

/-- The PUT body of the collections endpoint (`Partial<UserCollection>`,
keeping the fields the logic can write). -/
structure UpdateCollectionBody where
  condition : Option String
  quantity : Option ℚ
  notes : Option String
deriving Repr, DecidableEq

/-- The collections-row update, modelled over the table. -/
def CollectionRepository.updateCollection (table : List UserCollection)
    (userId collectionId : String) (b : UpdateCollectionBody) :
    Except String UserCollection :=
  match table.find? (fun r => r.id == collectionId && r.user_id == userId) with
  | none => .error "Row not found"
  | some r =>
    .ok { r with condition := b.condition.getD r.condition,
                 quantity := b.quantity.getD r.quantity,
                 notes := match b.notes with | some n => some n | none => r.notes }

/-- `CollectionService.updateCollectionItem`: required ids, then the update
(the source validates no fields here). -/
def CollectionService.updateCollectionItem (table : List UserCollection)
    (userId collectionId : String) (b : UpdateCollectionBody) :
    Except String UserCollection :=
  if userId = "" ∨ collectionId = "" then
    .error "User ID and Collection ID are required"
  else CollectionRepository.updateCollection table userId collectionId b

/-- `CollectionService.removeFromCollection`: required ids; the store
delete succeeds regardless of matches. -/
def CollectionService.removeFromCollection (userId collectionId : String) :
    Except String Unit :=
  if userId = "" ∨ collectionId = "" then
    .error "User ID and Collection ID are required"
  else .ok ()

/-- `CollectionService.getCollectionStats`: require a user, then the
repository aggregate over that user's query results. -/
def CollectionService.getCollectionStats (entries collections : List CollectionItem)
    (userId : String) : Except String CollectionStats :=
  if userId = "" then .error "User ID is required"
  else .ok (CollectionRepository.getCollectionStats entries collections)

/-- The JSON payload of a response, abstracting serialization. -/

inductive RespBody where
  | gainers (l : List CardPriceWithCard)
  | history (h : PriceHistory)
  | prices (l : List CardPrice)
  | price (p : CardPrice)
  | cards (l : List CardRow)
  | card (c : CardRow)
  | cardsWithPrices (l : List CardWithLatestPrice)
  | collections (l : List CollectionWithCard)
  | collectionItem (c : UserCollection)
  | stats (s : CollectionStats)
  | success
  | errorMsg (msg : String)
deriving Repr, DecidableEq

/-- An HTTP response: status code and payload. -/

structure HttpResponse where
  status : ℕ
  body : RespBody
deriving Repr, DecidableEq

/-- An inbound request to the prices handler.  `daysParam` and `limitParam`
model the integers parsed from the query string (`none` = parameter absent,
so the `parseInt(x || default)` fallback applies); `postBody`/`putBody` model
the parsed JSON body (`none` = `req.json()` fails). -/

structure PriceRequest where
  method : String
  pathSegments : List String
  cardIdParam : Option String
  conditionParam : Option String
  daysParam : Option ℤ
  gameParam : Option String
  limitParam : Option ℤ
  postBody : Option AddPriceBody
  putBody : Option UpdatePriceBody
deriving Repr, DecidableEq

/-- The catch-all error mapping of `PriceController.handleRequest`: a
successful service result is serialized with `okStatus`, any thrown error
becomes a 500 with the error's message. -/

def exceptToResponse {α : Type} (ok : α → RespBody) (okStatus : ℕ)
    (r : Except String α) : HttpResponse :=
  match r with
  | .error msg => ⟨500, .errorMsg msg⟩
  | .ok a => ⟨okStatus, ok a⟩

/-- `PriceController.handleRequest`: route on method and path, run the
matching service call, and map the result to a response. -/

def PriceController.handleRequest (now : ℤ) (prices : List CardPrice)
    (cards : List CardInfo) (req : PriceRequest) : HttpResponse :=
  if req.method = "GET" then
    if req.pathSegments.contains "top-gainers" then
      exceptToResponse .gainers 200
        (PriceService.getTopGainers now prices cards req.gameParam
          (req.limitParam.getD 10))
    else if req.pathSegments.contains "history" then
      let cardId := req.cardIdParam.getD ""
      let condition := req.conditionParam.getD ""
      if cardId = "" ∨ condition = "" then
        ⟨400, .errorMsg "card_id and condition are required"⟩
      else
        exceptToResponse .history 200
          (PriceService.getPriceHistory now prices cardId condition
            (req.daysParam.getD 30))
    else
      let cardId := req.cardIdParam.getD ""
      if cardId = "" then ⟨400, .errorMsg "card_id is required"⟩
      else exceptToResponse .prices 200 (PriceService.getCardPrices prices cardId)
  else if req.method = "POST" then
    match req.postBody with
    | none => ⟨500, .errorMsg "Invalid JSON body"⟩
    | some b => exceptToResponse .price 201 (PriceService.addPrice now b)
  else if req.method = "PUT" then
    match req.putBody with
    | none => ⟨500, .errorMsg "Invalid JSON body"⟩
    | some b =>
      exceptToResponse .price 200
        (PriceService.updatePrice prices (req.pathSegments.getLast?.getD "") b)
  else if req.method = "DELETE" then
    exceptToResponse (fun _ => .success) 200
      (PriceService.deletePrice (req.pathSegments.getLast?.getD ""))
  else ⟨405, .errorMsg "Method not allowed"⟩

/-- The cards controller's error mapping: only the `Card not found` message
becomes 404, every other thrown error 500. -/
def cardErrorStatus (msg : String) : ℕ :=
  if msg = "Card not found" then 404 else 500

/-- The cards controller's result serialization with its catch mapping. -/
def cardRespond {α : Type} (ok : α → RespBody) (okStatus : ℕ)
    (r : Except String α) : HttpResponse :=
  match r with
  | .error msg => ⟨cardErrorStatus msg, .errorMsg msg⟩
  | .ok a => ⟨okStatus, ok a⟩

/-- An inbound request to the cards handler, with the URL and body already
parsed; `none` models an absent parameter, and a `none` body a failing
`req.json()`. -/
structure CardRequest where
  method : String
  pathSegments : List String
  gameParam : Option String
  searchParam : Option String
  includePrices : Bool
  limitParam : Option ℤ
  offsetParam : Option ℤ
  setParam : Option String
  createBody : Option CreateCardBody
  updateBody : Option UpdateCardBody
deriving Repr, DecidableEq

/-- `CardController.handleRequest`: the by-id, by-set and listing GET
routes, create/update/delete, and the catch mapping (`Card not found` →
404, any other thrown error → 500).  A missing `set` parameter and the
empty string are both falsy in the source's `if (set)`. -/
def CardController.handleRequest (table : List CardRow) (prices : List CardPrice)
    (req : CardRequest) : HttpResponse :=
  if req.method = "GET" then
    if 1 < req.pathSegments.length then
      cardRespond .card 200
        (CardService.getCardById table (req.pathSegments.getLast?.getD ""))
    else if (req.setParam.getD "") = "" then
      cardRespond (fun r =>
        match r with
        | .inl l => .cards l
        | .inr l => .cardsWithPrices l) 200
        (CardService.getCards table prices req.gameParam req.searchParam
          req.includePrices (req.limitParam.getD 50) (req.offsetParam.getD 0))
    else
      cardRespond .cards 200
        (CardService.searchCardsBySet table (req.setParam.getD "") req.gameParam)
  else if req.method = "POST" then
    match req.createBody with
    | none => ⟨500, .errorMsg "Invalid JSON body"⟩
    | some b => cardRespond .card 201 (CardService.createCard b)
  else if req.method = "PUT" then
    match req.updateBody with
    | none => ⟨500, .errorMsg "Invalid JSON body"⟩
    | some b =>
      cardRespond .card 200
        (CardService.updateCard table (req.pathSegments.getLast?.getD "") b)
  else if req.method = "DELETE" then
    cardRespond (fun _ => .success) 200
      (CardService.deleteCard table (req.pathSegments.getLast?.getD ""))
  else ⟨405, .errorMsg "Method not allowed"⟩

/-- An inbound request to the collections handler.  `hasAuthHeader` models
the Authorization header's presence and `authUser` the identity provider's
resolution of it (`none` = error or no user, matching the source's
`if (authError || !user)` guard; afterwards the handler only reads
`user.id`, here `authUser.getD ""`). -/
structure CollectionRequest where
  method : String
  pathSegments : List String
  hasAuthHeader : Bool
  authUser : Option String
  addBody : Option AddCollectionBody
  updateBody : Option UpdateCollectionBody
deriving Repr, DecidableEq

/-- `CollectionController.handleRequest`: the two 401 guards, then the
stats/list/create/update/delete routes with the catch-all 500. -/
def CollectionController.handleRequest (now : ℤ) (cards : List CardInfo)
    (ucTable : List UserCollection) (entries collections : List CollectionItem)
    (req : CollectionRequest) : HttpResponse :=
  if req.hasAuthHeader = false then
    ⟨401, .errorMsg "Authorization header required"⟩
  else if req.authUser.isNone then
    ⟨401, .errorMsg "Unauthorized"⟩
  else if req.method = "GET" then
    if req.pathSegments.contains "stats" then
      exceptToResponse .stats 200
        (CollectionService.getCollectionStats entries collections
          (req.authUser.getD ""))
    else
      exceptToResponse .collections 200
        (CollectionService.getUserCollections cards ucTable (req.authUser.getD ""))
  else if req.method = "POST" then
    match req.addBody with
    | none => ⟨500, .errorMsg "Invalid JSON body"⟩
    | some b =>
      exceptToResponse .collectionItem 201
        (CollectionService.addCardToCollection now (req.authUser.getD "") b)
  else if req.method = "PUT" then
    match req.updateBody with
    | none => ⟨500, .errorMsg "Invalid JSON body"⟩
    | some b =>
      exceptToResponse .collectionItem 200
        (CollectionService.updateCollectionItem ucTable (req.authUser.getD "")
          (req.pathSegments.getLast?.getD "") b)
  else if req.method = "DELETE" then
    exceptToResponse (fun _ => .success) 200
      (CollectionService.removeFromCollection (req.authUser.getD "")
        (req.pathSegments.getLast?.getD ""))
  else ⟨405, .errorMsg "Method not allowed"⟩

/-- The request of the C3 counterexample: a well-formed history query whose
only flaw is the out-of-range day count 400. -/

def reqDays400 : PriceRequest :=
  ⟨"GET", ["prices", "history"], some "c1", some "mint", some 400,
    none, none, none, none⟩

/-- Price table for the C7 counterexample: two (card, condition) keys, each
with a record in both buckets (`now` = 20). -/

def gainPricesC7 : List CardPrice :=
  [⟨"a1", "card1", "mint", 10, "EUR", none, 19⟩,
   ⟨"a2", "card1", "mint", 5, "EUR", none, 10⟩,
   ⟨"a3", "card1", "damaged", 8, "EUR", none, 19⟩,
   ⟨"a4", "card1", "damaged", 4, "EUR", none, 10⟩]

theorem mapLookup_mapSet {α : Type} (m : List (String × α)) (k c : String) (v : α) :
    mapLookup (mapSet m k v) c = if c = k then some v else mapLookup m c := by
  induction m with
  | nil =>
    simp only [mapSet, mapLookup]
    by_cases h : c = k
    · rw [if_pos h.symm, if_pos h]
    · rw [if_neg (fun h' => h h'.symm), if_neg h]
  | cons p rest ih =>
    obtain ⟨k', v'⟩ := p
    simp only [mapSet]
    by_cases h : k' = k
    · subst h
      simp only [if_pos rfl, mapLookup]
      by_cases hc : c = k'
      · rw [if_pos hc.symm, if_pos hc]
      · rw [if_neg (fun h' => hc h'.symm), if_neg hc, if_neg (fun h' => hc h'.symm)]
    · simp only [if_neg h, mapLookup, ih]
      by_cases hc : k' = c
      · have hck : ¬ c = k := fun h' => h (hc.trans h')
        rw [if_pos hc, if_neg hck, if_pos hc]
      · rw [if_neg hc, if_neg hc]

theorem mapLookup_some_mem {α : Type} {m : List (String × α)} {k : String} {v : α}
    (h : mapLookup m k = some v) : (k, v) ∈ m := by
  induction m with
  | nil => simp [mapLookup] at h
  | cons p rest ih =>
    obtain ⟨k', v'⟩ := p
    by_cases hk : k' = k
    · subst hk
      simp [mapLookup] at h
      subst h
      exact List.mem_cons_self _ _
    · simp only [mapLookup, if_neg hk] at h
      exact List.mem_cons_of_mem _ (ih h)

theorem mapLookup_eq_none_iff {α : Type} (m : List (String × α)) (k : String) :
    mapLookup m k = none ↔ k ∉ m.map Prod.fst := by
  induction m with
  | nil => simp [mapLookup]
  | cons p rest ih =>
    obtain ⟨k', v'⟩ := p
    by_cases hk : k' = k
    · subst hk; simp [mapLookup]
    · have hk2 : ¬ k = k' := fun hh => hk hh.symm
      simp [mapLookup, hk, hk2, ih]

theorem lookup_latestStep_same (m : List (String × CardPrice)) (r : CardPrice)
    {c : String} (hc : r.condition = c) :
    mapLookup (latestStep m r) c = pickLater (mapLookup m c) r := by
  subst hc
  cases hm : mapLookup m r.condition with
  | none =>
    have h1 : latestStep m r = mapSet m r.condition r := by
      simp only [latestStep, hm]
    rw [h1, mapLookup_mapSet, if_pos rfl]
    simp only [pickLater]
  | some existing =>
    by_cases hlt : existing.recorded_at < r.recorded_at
    · have h1 : latestStep m r = mapSet m r.condition r := by
        simp only [latestStep, hm, if_pos hlt]
      rw [h1, mapLookup_mapSet, if_pos rfl]
      simp only [pickLater, if_pos hlt]
    · have h1 : latestStep m r = m := by
        simp only [latestStep, hm, if_neg hlt]
      rw [h1, hm]
      simp only [pickLater, if_neg hlt]

theorem lookup_latestStep_other (m : List (String × CardPrice)) (r : CardPrice)
    {c : String} (hc : ¬ r.condition = c) :
    mapLookup (latestStep m r) c = mapLookup m c := by
  cases hm : mapLookup m r.condition with
  | none =>
    have h1 : latestStep m r = mapSet m r.condition r := by
      simp only [latestStep, hm]
    rw [h1, mapLookup_mapSet, if_neg (fun h => hc h.symm)]
  | some existing =>
    by_cases hlt : existing.recorded_at < r.recorded_at
    · have h1 : latestStep m r = mapSet m r.condition r := by
        simp only [latestStep, hm, if_pos hlt]
      rw [h1, mapLookup_mapSet, if_neg (fun h => hc h.symm)]
    · have h1 : latestStep m r = m := by
        simp only [latestStep, hm, if_neg hlt]
      rw [h1]

theorem lookup_foldl_latestStep (l : List CardPrice)
    (m : List (String × CardPrice)) (c : String) :
    mapLookup (l.foldl latestStep m) c =
      (l.filter (fun r => r.condition == c)).foldl pickLater (mapLookup m c) := by
  induction l generalizing m with
  | nil => rfl
  | cons r rs ih =>
    by_cases hc : r.condition = c
    · have hb : (r.condition == c) = true := by simp [hc]
      rw [List.foldl_cons, List.filter_cons, if_pos hb, List.foldl_cons, ih,
        lookup_latestStep_same m r hc]
    · have hb : ¬ ((r.condition == c) = true) := by simp [hc]
      rw [List.foldl_cons, List.filter_cons, if_neg hb, ih,
        lookup_latestStep_other m r hc]

theorem pickLater_ne_none (acc : Option CardPrice) (r : CardPrice) :
    pickLater acc r ≠ none := by
  unfold pickLater
  cases acc with
  | none => simp
  | some v => by_cases h : v.recorded_at < r.recorded_at <;> simp [h]

theorem foldl_pickLater_eq_none_iff (l : List CardPrice) (acc : Option CardPrice) :
    l.foldl pickLater acc = none ↔ (acc = none ∧ l = []) := by
  induction l generalizing acc with
  | nil => simp
  | cons r rs ih =>
    rw [List.foldl_cons, ih]
    simp [pickLater_ne_none acc r]

theorem pickLater_eq_some (acc : Option CardPrice) (r : CardPrice) :
    ∃ w, pickLater acc r = some w ∧ r.recorded_at ≤ w.recorded_at ∧
      (∀ u, acc = some u → u.recorded_at ≤ w.recorded_at) ∧
      (w = r ∨ acc = some w) := by
  cases acc with
  | none =>
    refine ⟨r, rfl, le_refl _, ?_, Or.inl rfl⟩
    intro u hu
    exact Option.noConfusion hu
  | some u =>
    by_cases hlt : u.recorded_at < r.recorded_at
    · refine ⟨r, by simp [pickLater, hlt], le_refl _, ?_, Or.inl rfl⟩
      intro x hx
      injection hx with hx
      subst hx
      exact le_of_lt hlt
    · refine ⟨u, by simp [pickLater, hlt], not_lt.mp hlt, ?_, Or.inr rfl⟩
      intro x hx
      injection hx with hx
      subst hx
      exact le_refl _

theorem foldl_pickLater_acc_le (l : List CardPrice) (acc : Option CardPrice)
    (v w : CardPrice) (h : l.foldl pickLater acc = some v) (hacc : acc = some w) :
    w.recorded_at ≤ v.recorded_at := by
  induction l generalizing acc w with
  | nil =>
    rw [List.foldl_nil, hacc, Option.some_inj] at h
    subst h; exact le_refl _
  | cons r rs ih =>
    rw [List.foldl_cons] at h
    obtain ⟨w', hw', _, hle, _⟩ := pickLater_eq_some acc r
    exact (hle w hacc).trans (ih (pickLater acc r) w' h hw')

theorem foldl_pickLater_max (l : List CardPrice) (acc : Option CardPrice)
    (v : CardPrice) (h : l.foldl pickLater acc = some v) :
    ∀ x ∈ l, x.recorded_at ≤ v.recorded_at := by
  induction l generalizing acc with
  | nil => simp
  | cons r rs ih =>
    rw [List.foldl_cons] at h
    intro x hx
    rcases List.mem_cons.mp hx with hx | hx
    · obtain ⟨w', hw', hrle, _, _⟩ := pickLater_eq_some acc r
      rw [hx]
      exact hrle.trans (foldl_pickLater_acc_le rs _ v w' h hw')
    · exact ih (pickLater acc r) h x hx

theorem foldl_pickLater_mem (l : List CardPrice) (acc : Option CardPrice)
    (v : CardPrice) (h : l.foldl pickLater acc = some v) :
    v ∈ l ∨ acc = some v := by
  induction l generalizing acc with
  | nil => exact Or.inr h
  | cons r rs ih =>
    rw [List.foldl_cons] at h
    rcases ih (pickLater acc r) h with hv | hv
    · exact Or.inl (List.mem_cons_of_mem _ hv)
    · obtain ⟨w', hw', _, _, hwr⟩ := pickLater_eq_some acc r
      rw [hw', Option.some_inj] at hv
      subst hv
      rcases hwr with hwr | hwr
      · exact Or.inl (hwr ▸ List.mem_cons_self _ _)
      · exact Or.inr hwr

theorem mapSet_keys {α : Type} (m : List (String × α)) (k : String) (v : α) :
    (mapSet m k v).map Prod.fst =
      if k ∈ m.map Prod.fst then m.map Prod.fst else m.map Prod.fst ++ [k] := by
  induction m with
  | nil => simp [mapSet]
  | cons p rest ih =>
    obtain ⟨k', v'⟩ := p
    by_cases h : k' = k
    · subst h; simp [mapSet]
    · have h2 : ¬ k = k' := fun hh => h hh.symm
      simp only [mapSet, if_neg h, List.map_cons, ih, List.mem_cons]
      by_cases hk : k ∈ rest.map Prod.fst
      · simp [hk, h2]
      · simp [hk, h2]

theorem latestStep_keys_nodup (m : List (String × CardPrice)) (r : CardPrice)
    (h : (m.map Prod.fst).Nodup) : ((latestStep m r).map Prod.fst).Nodup := by
  have hset : ((mapSet m r.condition r).map Prod.fst).Nodup := by
    rw [mapSet_keys]
    by_cases hk : r.condition ∈ m.map Prod.fst
    · rwa [if_pos hk]
    · rw [if_neg hk]
      simp [List.nodup_append, h, hk]
  unfold latestStep
  cases hm : mapLookup m r.condition with
  | none => exact hset
  | some existing =>
    by_cases hlt : existing.recorded_at < r.recorded_at
    · simpa [hlt] using hset
    · simpa [hlt] using h

theorem foldl_latestStep_keys_nodup (data : List CardPrice)
    (m : List (String × CardPrice)) (h : (m.map Prod.fst).Nodup) :
    ((data.foldl latestStep m).map Prod.fst).Nodup := by
  induction data generalizing m with
  | nil => exact h
  | cons r rs ih => exact ih (latestStep m r) (latestStep_keys_nodup m r h)

theorem mapLookup_eq_some_of_mem {α : Type} {m : List (String × α)}
    (hnd : (m.map Prod.fst).Nodup) {k : String} {v : α} (hm : (k, v) ∈ m) :
    mapLookup m k = some v := by
  induction m with
  | nil => cases hm
  | cons p rest ih =>
    obtain ⟨k', v'⟩ := p
    rcases List.mem_cons.mp hm with hm | hm
    · injection hm with h1 h2
      subst h1; subst h2
      simp [mapLookup]
    · have hk : ¬ k' = k := by
        intro hh
        subst hh
        have : k' ∈ rest.map Prod.fst :=
          List.mem_map.mpr ⟨(k', v), hm, rfl⟩
        exact (List.nodup_cons.mp (by simpa using hnd)).1 this
      simp only [mapLookup, if_neg hk]
      exact ih (List.nodup_cons.mp (by simpa using hnd)).2 hm

theorem fold_entry_spec (data : List CardPrice) {k : String} {v : CardPrice}
    (h : mapLookup (data.foldl latestStep []) k = some v) :
    v.condition = k ∧ v ∈ data ∧
      ∀ s ∈ data, s.condition = k → s.recorded_at ≤ v.recorded_at := by
  rw [lookup_foldl_latestStep] at h
  have hmem := foldl_pickLater_mem _ _ _ h
  have hmax := foldl_pickLater_max _ _ _ h
  rcases hmem with hv | hv
  · have hf := List.mem_filter.mp hv
    refine ⟨by simpa using hf.2, hf.1, ?_⟩
    intro s hs hsc
    exact hmax s (List.mem_filter.mpr ⟨hs, by simp [hsc]⟩)
  · exact Option.noConfusion hv

/-- C4: the latest-price resolver keeps exactly one record per distinct
condition present in the input, each kept record comes from the input, and
its `recorded_at` is ≥ the `recorded_at` of every input record with the same
condition. -/

theorem latest_resolver_unique_max (data : List CardPrice) :
    ((latestByCondition data).map (fun r => r.condition)).Nodup ∧
    (∀ c, c ∈ (latestByCondition data).map (fun r => r.condition) ↔
      c ∈ data.map (fun r => r.condition)) ∧
    (∀ r ∈ latestByCondition data, r ∈ data ∧
      ∀ s ∈ data, s.condition = r.condition → s.recorded_at ≤ r.recorded_at) := by
  have hnd := foldl_latestStep_keys_nodup data [] (by simp)
  have hmapeq : (latestByCondition data).map (fun r => r.condition)
      = (data.foldl latestStep []).map Prod.fst := by
    unfold latestByCondition
    rw [List.map_map]
    apply List.map_congr_left
    intro p hp
    obtain ⟨k, v⟩ := p
    have hl := mapLookup_eq_some_of_mem hnd hp
    simpa using (fold_entry_spec data hl).1
  refine ⟨hmapeq ▸ hnd, ?_, ?_⟩
  · intro c
    have hiff : mapLookup (data.foldl latestStep []) c = none ↔
        (data.filter (fun r => r.condition == c)) = [] := by
      rw [lookup_foldl_latestStep]
      simpa using foldl_pickLater_eq_none_iff (data.filter (fun r => r.condition == c)) none
    have hkeys := mapLookup_eq_none_iff (data.foldl latestStep []) c
    rw [hmapeq]
    constructor
    · intro hc
      by_cases hfil : (data.filter (fun r => r.condition == c)) = []
      · exact absurd hc (hkeys.mp (hiff.mpr hfil))
      · obtain ⟨x, hx⟩ := List.exists_mem_of_ne_nil _ hfil
        have hxf := List.mem_filter.mp hx
        exact List.mem_map.mpr ⟨x, hxf.1, by simpa using hxf.2⟩
    · intro hc
      obtain ⟨x, hxd, hxc⟩ := List.mem_map.mp hc
      have hfil : (data.filter (fun r => r.condition == c)) ≠ [] := by
        intro hnil
        have := List.filter_eq_nil_iff.mp hnil x hxd
        simp [hxc] at this
      by_contra hmem
      exact hfil (hiff.mp (hkeys.mpr hmem))
  · intro r hr
    obtain ⟨p, hp, hpr⟩ := List.mem_map.mp hr
    obtain ⟨k, v⟩ := p
    have hl := mapLookup_eq_some_of_mem hnd hp
    obtain ⟨hck, hmem, hmax⟩ := fold_entry_spec data hl
    have hvr : v = r := hpr
    refine ⟨hvr ▸ hmem, ?_⟩
    intro s hs hsc
    have hsk : s.condition = k := by rw [hsc, ← hvr, hck]
    have := hmax s hs hsk
    rwa [hvr] at this

/-- Witness for C4 at a concrete record set. -/

theorem latest_resolver_unique_max_witness :
    ((latestByCondition histD4).map (fun r => r.condition)).Nodup ∧
    ("mint" ∈ (latestByCondition histD4).map (fun r => r.condition)) ∧
    (∀ s ∈ histD4, s.condition = "mint" → s.recorded_at ≤ 5) := by
  have h := latest_resolver_unique_max histD4
  refine ⟨h.1, (h.2.1 "mint").mpr (by decide), ?_⟩
  have h2 := h.2.2 ⟨"p2", "c1", "mint", 12, "EUR", none, 5⟩ (by decide)
  exact h2.2

/-- C2 counterexample: on two records of the same condition sharing the
maximum `recorded_at`, the resolver keeps the FIRST record encountered in
traversal order, not the last — the claimed output `[tieRecB]` is wrong. -/

theorem latest_resolver_tie_cex :
    latestByCondition [tieRecA, tieRecB] = [tieRecA] ∧
    latestByCondition [tieRecA, tieRecB] ≠ [tieRecB] := by decide

/-- C2 (amended): for every condition, the record the resolver retains is
`firstMax` of the records with that condition — the running fold replaces the
stored record only when strictly later, so among records sharing the maximum
timestamp the first one encountered in traversal order wins. -/

theorem latest_resolver_tie_first_wins (data : List CardPrice) (c : String) :
    mapLookup (data.foldl latestStep []) c =
      firstMax (data.filter (fun r => r.condition == c)) :=
  lookup_foldl_latestStep data [] c

theorem valid_condition_ne_empty {condition : String}
    (hv : condition ∈ validConditions) : condition ≠ "" := by
  intro h
  rw [h] at hv
  exact absurd hv (by decide)

theorem getPriceHistory_ok (now : ℤ) (table : List CardPrice)
    (cardId condition : String) (days : ℤ) (hc : cardId ≠ "")
    (hv : condition ∈ validConditions) (hd : days ≤ 365) :
    PriceService.getPriceHistory now table cardId condition days =
      .ok ⟨cardId, condition,
        (PriceRepository.getPriceHistory now table cardId condition days).map
          toPricePoint⟩ := by
  have h1 : ¬ (cardId = "" ∨ condition = "") := by
    rintro (h | h)
    · exact hc h
    · exact valid_condition_ne_empty hv h
  have h2 : ¬ (365 < days) := not_lt.mpr hd
  have h3 : ¬ (condition ∉ validConditions) := fun h => h hv
  simp only [PriceService.getPriceHistory, if_neg h1, if_neg h2, if_neg h3]

theorem getPriceHistory_mem (now : ℤ) (table : List CardPrice)
    (cardId condition : String) (days : ℤ) {p : PricePoint}
    (hp : p ∈ (PriceRepository.getPriceHistory now table cardId condition days).map
      toPricePoint) :
    ∃ r ∈ table, toPricePoint r = p ∧ cutoffDate now days ≤ r.recorded_at := by
  obtain ⟨r, hr, hrp⟩ := List.mem_map.mp hp
  have hrf : r ∈ table.filter
      (fun r => r.card_id == cardId && r.condition == condition &&
        decide (cutoffDate now days ≤ r.recorded_at)) :=
    (List.Perm.mem_iff (List.perm_insertionSort tsAsc _)).mp hr
  have hf := List.mem_filter.mp hrf
  have hcut : cutoffDate now days ≤ r.recorded_at := by
    have := hf.2
    simp only [Bool.and_eq_true, decide_eq_true_eq] at this
    exact this.2
  exact ⟨r, hf.1, hrp, hcut⟩

/-- C6: the history query errors when the day count exceeds 365 or the
condition is not one of the six enum values; on valid inputs it returns an
ok result (possibly empty) whose points are ascending by `recorded_at` and
all lie within `[now - days, now]` (the upper bound under the append-only
hypothesis that no stored record is future-dated). -/

theorem price_history_spec (now : ℤ) (table : List CardPrice)
    (cardId condition : String) (days : ℤ) :
    (365 < days →
      ∃ msg, PriceService.getPriceHistory now table cardId condition days =
        .error msg) ∧
    (condition ∉ validConditions →
      ∃ msg, PriceService.getPriceHistory now table cardId condition days =
        .error msg) ∧
    (cardId ≠ "" → condition ∈ validConditions → days ≤ 365 →
      ∃ h, PriceService.getPriceHistory now table cardId condition days = .ok h ∧
        List.Sorted (fun a b : PricePoint => a.recorded_at ≤ b.recorded_at) h.prices ∧
        (∀ p ∈ h.prices, now - days ≤ p.recorded_at) ∧
        ((∀ r ∈ table, r.recorded_at ≤ now) → ∀ p ∈ h.prices, p.recorded_at ≤ now)) := by
  refine ⟨?_, ?_, ?_⟩
  · intro hd
    unfold PriceService.getPriceHistory
    by_cases h1 : cardId = "" ∨ condition = ""
    · rw [if_pos h1]; exact ⟨_, rfl⟩
    · rw [if_neg h1, if_pos hd]; exact ⟨_, rfl⟩
  · intro hv
    unfold PriceService.getPriceHistory
    by_cases h1 : cardId = "" ∨ condition = ""
    · rw [if_pos h1]; exact ⟨_, rfl⟩
    · by_cases h2 : 365 < days
      · rw [if_neg h1, if_pos h2]; exact ⟨_, rfl⟩
      · rw [if_neg h1, if_neg h2, if_pos hv]; exact ⟨_, rfl⟩
  · intro hc hv hd
    refine ⟨_, getPriceHistory_ok now table cardId condition days hc hv hd, ?_, ?_, ?_⟩
    · have hs := List.sorted_insertionSort tsAsc (table.filter
        (fun r => r.card_id == cardId && r.condition == condition &&
          decide (cutoffDate now days ≤ r.recorded_at)))
      exact List.pairwise_map.mpr (hs.imp (fun h => h))
    · intro p hp
      obtain ⟨r, _, hrp, hcut⟩ := getPriceHistory_mem now table cardId condition days hp
      rw [← hrp]
      exact hcut
    · intro htab p hp
      obtain ⟨r, hrt, hrp, _⟩ := getPriceHistory_mem now table cardId condition days hp
      rw [← hrp]
      exact htab r hrt

/-- Witness for C6 at a concrete valid query (`now` = 10, 30-day window). -/

theorem price_history_spec_witness :
    ∃ h, PriceService.getPriceHistory 10 histC6w "c" "mint" 30 = .ok h ∧
      List.Sorted (fun a b : PricePoint => a.recorded_at ≤ b.recorded_at) h.prices ∧
      (∀ p ∈ h.prices, 10 - 30 ≤ p.recorded_at) ∧
      ((∀ r ∈ histC6w, r.recorded_at ≤ 10) → ∀ p ∈ h.prices, p.recorded_at ≤ 10) :=
  (price_history_spec 10 histC6w "c" "mint" 30).2.2 (by decide) (by decide) (by decide)

/-- C10 counterexample: with a zero day count the cutoff equals `now`
(it is NOT later than `now`), and the query returns the record stamped
exactly at `now` even though no record is future-dated — so the result is
not empty. -/

theorem price_history_nonpositive_days_cex :
    ¬ (0 < cutoffDate 0 0) ∧
    PriceService.getPriceHistory 0 histC10 "c" "mint" 0 =
      .ok ⟨"c", "mint", [⟨10, "EUR", none, 0⟩]⟩ ∧
    (∀ r ∈ histC10, r.recorded_at ≤ 0) :=
  ⟨by decide, by rfl, by decide⟩

/-- C10 (amended): day counts of zero or negative value pass validation;
for a strictly negative day count the cutoff lies strictly after `now` and
the result is empty whenever no stored record is future-dated; for a zero
day count the cutoff equals `now`, so only records stamped at or after `now`
are returned. -/

theorem price_history_nonpositive_days (now : ℤ) (table : List CardPrice)
    (cardId condition : String) (days : ℤ) (hc : cardId ≠ "")
    (hv : condition ∈ validConditions) (hd : days ≤ 0) :
    ∃ h, PriceService.getPriceHistory now table cardId condition days = .ok h ∧
      (days < 0 → now < cutoffDate now days ∧
        ((∀ r ∈ table, r.recorded_at ≤ now) → h.prices = [])) ∧
      (days = 0 → cutoffDate now days = now ∧
        ∀ p ∈ h.prices, now ≤ p.recorded_at) := by
  refine ⟨_, getPriceHistory_ok now table cardId condition days hc hv
    (hd.trans (by norm_num)), ?_, ?_⟩
  · intro hneg
    have hcut : now < cutoffDate now days := by
      unfold cutoffDate
      omega
    refine ⟨hcut, ?_⟩
    intro htab
    have hfil : table.filter
        (fun r => r.card_id == cardId && r.condition == condition &&
          decide (cutoffDate now days ≤ r.recorded_at)) = [] := by
      apply List.filter_eq_nil_iff.mpr
      intro r hr
      have hts : r.recorded_at < cutoffDate now days := lt_of_le_of_lt (htab r hr) hcut
      simp [not_le.mpr hts]
    simp only [PriceRepository.getPriceHistory, hfil]
    rfl
  · intro hzero
    subst hzero
    have hcut : cutoffDate now 0 = now := by
      unfold cutoffDate
      omega
    refine ⟨hcut, ?_⟩
    intro p hp
    obtain ⟨r, _, hrp, hge⟩ := getPriceHistory_mem now table cardId condition 0 hp
    rw [← hrp]
    rw [hcut] at hge
    exact hge

/-- Witness for the amended C10 at `days = -1`: the query succeeds and,
since nothing is future-dated, returns an empty history. -/

theorem price_history_nonpositive_days_witness :
    ∃ h, PriceService.getPriceHistory 0 histC10w "c" "mint" (-1) = .ok h ∧
      ((-1 : ℤ) < 0 → (0 : ℤ) < cutoffDate 0 (-1) ∧
        ((∀ r ∈ histC10w, r.recorded_at ≤ 0) → h.prices = [])) ∧
      ((-1 : ℤ) = 0 → cutoffDate 0 (-1) = 0 ∧
        ∀ p ∈ h.prices, (0 : ℤ) ≤ p.recorded_at) := by
  have h := price_history_nonpositive_days 0 histC10w "c" "mint" (-1)
    (by decide) (by decide) (by decide)
  obtain ⟨hh, hok, hneg, hzero⟩ := h
  exact ⟨hh, hok, fun hlt => ⟨(hneg hlt).1, (hneg hlt).2⟩, hzero⟩

theorem lookup_gainStep_same (now : ℤ) (m : List (String × ChangeEntry))
    (r : CardPriceWithCard) {k : String} (hk : priceKey r = k) :
    mapLookup (gainStep now m r) k =
      some (updateEntry now r ((mapLookup m k).getD ⟨r.cards, 0, 0, 0, 0⟩)) := by
  subst hk
  cases hm : mapLookup m (priceKey r) with
  | none =>
    have h1 : gainStep now m r =
        mapSet m (priceKey r) (updateEntry now r ⟨r.cards, 0, 0, 0, 0⟩) := by
      simp only [gainStep, hm]
    rw [h1, mapLookup_mapSet, if_pos rfl]
    rfl
  | some e =>
    have h1 : gainStep now m r = mapSet m (priceKey r) (updateEntry now r e) := by
      simp only [gainStep, hm]
    rw [h1, mapLookup_mapSet, if_pos rfl]
    rfl

theorem lookup_gainStep_other (now : ℤ) (m : List (String × ChangeEntry))
    (r : CardPriceWithCard) {k : String} (hk : ¬ priceKey r = k) :
    mapLookup (gainStep now m r) k = mapLookup m k := by
  cases hm : mapLookup m (priceKey r) with
  | none =>
    have h1 : gainStep now m r =
        mapSet m (priceKey r) (updateEntry now r ⟨r.cards, 0, 0, 0, 0⟩) := by
      simp only [gainStep, hm]
    rw [h1, mapLookup_mapSet, if_neg (fun h => hk h.symm)]
  | some e =>
    have h1 : gainStep now m r = mapSet m (priceKey r) (updateEntry now r e) := by
      simp only [gainStep, hm]
    rw [h1, mapLookup_mapSet, if_neg (fun h => hk h.symm)]

theorem lookup_foldl_gainStep_some (now : ℤ) (l : List CardPriceWithCard)
    (m : List (String × ChangeEntry)) (k : String) (e : ChangeEntry)
    (hm : mapLookup m k = some e) :
    mapLookup (l.foldl (gainStep now) m) k =
      some ((l.filter (fun r => priceKey r == k)).foldl
        (fun e r => updateEntry now r e) e) := by
  induction l generalizing m e with
  | nil => simpa using hm
  | cons r rs ih =>
    by_cases hk : priceKey r = k
    · have hb : (priceKey r == k) = true := by simp [hk]
      have hstep : mapLookup (gainStep now m r) k = some (updateEntry now r e) := by
        rw [lookup_gainStep_same now m r hk, hm]
        rfl
      rw [List.foldl_cons, List.filter_cons, if_pos hb, List.foldl_cons,
        ih (gainStep now m r) (updateEntry now r e) hstep]
    · have hb : ¬ ((priceKey r == k) = true) := by simp [hk]
      have hstep : mapLookup (gainStep now m r) k = some e := by
        rw [lookup_gainStep_other now m r hk, hm]
      rw [List.foldl_cons, List.filter_cons, if_neg hb, ih (gainStep now m r) e hstep]

theorem lookup_foldl_gainStep_none (now : ℤ) (l : List CardPriceWithCard)
    (m : List (String × ChangeEntry)) (k : String)
    (hm : mapLookup m k = none) :
    mapLookup (l.foldl (gainStep now) m) k =
      gainRun now (l.filter (fun r => priceKey r == k)) := by
  induction l generalizing m with
  | nil => simpa using hm
  | cons r rs ih =>
    by_cases hk : priceKey r = k
    · have hb : (priceKey r == k) = true := by simp [hk]
      have hstep : mapLookup (gainStep now m r) k =
          some (updateEntry now r ⟨r.cards, 0, 0, 0, 0⟩) := by
        rw [lookup_gainStep_same now m r hk, hm]
        rfl
      rw [List.foldl_cons, List.filter_cons, if_pos hb,
        lookup_foldl_gainStep_some now rs (gainStep now m r) k _ hstep]
      rfl
    · have hb : ¬ ((priceKey r == k) = true) := by simp [hk]
      have hstep : mapLookup (gainStep now m r) k = none := by
        rw [lookup_gainStep_other now m r hk, hm]
      rw [List.foldl_cons, List.filter_cons, if_neg hb, ih (gainStep now m r) hstep]

theorem updateEntry_card (now : ℤ) (r : CardPriceWithCard) (e : ChangeEntry) :
    (updateEntry now r e).card = e.card := by
  unfold updateEntry
  split_ifs <;> rfl

theorem updateEntry_change (now : ℤ) (r : CardPriceWithCard) (e : ChangeEntry) :
    (updateEntry now r e).change = e.change := by
  unfold updateEntry
  split_ifs <;> rfl

theorem updateEntry_changePercent (now : ℤ) (r : CardPriceWithCard) (e : ChangeEntry) :
    (updateEntry now r e).changePercent = e.changePercent := by
  unfold updateEntry
  split_ifs <;> rfl

theorem updateEntry_cur (now : ℤ) (r : CardPriceWithCard) (e : ChangeEntry) :
    (updateEntry now r e).currentPrice =
      if now - 7 ≤ r.recorded_at ∧ e.currentPrice = 0 then r.price
      else e.currentPrice := by
  unfold updateEntry
  split_ifs <;> rfl

theorem updateEntry_prev (now : ℤ) (r : CardPriceWithCard) (e : ChangeEntry) :
    (updateEntry now r e).previousPrice =
      if r.recorded_at < now - 7 ∧ now - 14 ≤ r.recorded_at ∧ e.previousPrice = 0
      then r.price else e.previousPrice := by
  unfold updateEntry
  split_ifs with h1 h2 h3
  · exact absurd h2.1 (not_lt.mpr h1.1)
  all_goals rfl

theorem foldl_updateEntry_card (now : ℤ) (l : List CardPriceWithCard)
    (e0 : ChangeEntry) :
    (l.foldl (fun e r => updateEntry now r e) e0).card = e0.card := by
  induction l generalizing e0 with
  | nil => rfl
  | cons r rs ih => rw [List.foldl_cons, ih, updateEntry_card]

theorem foldl_updateEntry_change (now : ℤ) (l : List CardPriceWithCard)
    (e0 : ChangeEntry) :
    (l.foldl (fun e r => updateEntry now r e) e0).change = e0.change := by
  induction l generalizing e0 with
  | nil => rfl
  | cons r rs ih => rw [List.foldl_cons, ih, updateEntry_change]

theorem foldl_updateEntry_changePercent (now : ℤ) (l : List CardPriceWithCard)
    (e0 : ChangeEntry) :
    (l.foldl (fun e r => updateEntry now r e) e0).changePercent = e0.changePercent := by
  induction l generalizing e0 with
  | nil => rfl
  | cons r rs ih => rw [List.foldl_cons, ih, updateEntry_changePercent]

theorem foldl_updateEntry_cur (now : ℤ) (l : List CardPriceWithCard)
    (e0 : ChangeEntry) (hpos : ∀ r ∈ l, 0 < r.price) :
    (l.foldl (fun e r => updateEntry now r e) e0).currentPrice =
      if e0.currentPrice = 0 then
        priceOfOpt (l.find? (fun r => decide (now - 7 ≤ r.recorded_at)))
      else e0.currentPrice := by
  induction l generalizing e0 with
  | nil =>
    by_cases h : e0.currentPrice = 0 <;> simp [priceOfOpt, h]
  | cons r rs ih =>
    have hpos' : ∀ x ∈ rs, 0 < x.price := fun x hx => hpos x (List.mem_cons_of_mem _ hx)
    rw [List.foldl_cons, ih _ hpos']
    by_cases hcur : e0.currentPrice = 0
    · by_cases hts : now - 7 ≤ r.recorded_at
      · have hupd : (updateEntry now r e0).currentPrice = r.price := by
          rw [updateEntry_cur, if_pos ⟨hts, hcur⟩]
        have hne : ¬ ((updateEntry now r e0).currentPrice = 0) := by
          rw [hupd]; exact (hpos r (List.mem_cons_self r rs)).ne'
        rw [if_neg hne, hupd, if_pos hcur, List.find?_cons, decide_eq_true hts]
        rfl
      · have hupd : (updateEntry now r e0).currentPrice = e0.currentPrice := by
          rw [updateEntry_cur, if_neg (fun hh => hts hh.1)]
        have hz : (updateEntry now r e0).currentPrice = 0 := by rw [hupd]; exact hcur
        rw [if_pos hz, if_pos hcur, List.find?_cons, decide_eq_false hts]
    · have hne : ¬ ((updateEntry now r e0).currentPrice = 0) := by
        rw [updateEntry_cur, if_neg (fun hh => hcur hh.2)]; exact hcur
      rw [if_neg hne, if_neg hcur, updateEntry_cur, if_neg (fun hh => hcur hh.2)]

theorem foldl_updateEntry_prev (now : ℤ) (l : List CardPriceWithCard)
    (e0 : ChangeEntry) (hpos : ∀ r ∈ l, 0 < r.price) :
    (l.foldl (fun e r => updateEntry now r e) e0).previousPrice =
      if e0.previousPrice = 0 then
        priceOfOpt (l.find? (fun r =>
          decide (r.recorded_at < now - 7) && decide (now - 14 ≤ r.recorded_at)))
      else e0.previousPrice := by
  induction l generalizing e0 with
  | nil =>
    by_cases h : e0.previousPrice = 0 <;> simp [priceOfOpt, h]
  | cons r rs ih =>
    have hpos' : ∀ x ∈ rs, 0 < x.price := fun x hx => hpos x (List.mem_cons_of_mem _ hx)
    rw [List.foldl_cons, ih _ hpos']
    by_cases hprev : e0.previousPrice = 0
    · by_cases hts : r.recorded_at < now - 7 ∧ now - 14 ≤ r.recorded_at
      · have hupd : (updateEntry now r e0).previousPrice = r.price := by
          rw [updateEntry_prev, if_pos ⟨hts.1, hts.2, hprev⟩]
        have hne : ¬ ((updateEntry now r e0).previousPrice = 0) := by
          rw [hupd]; exact (hpos r (List.mem_cons_self r rs)).ne'
        have hpred : (decide (r.recorded_at < now - 7) &&
            decide (now - 14 ≤ r.recorded_at)) = true := by
          rw [decide_eq_true hts.1, decide_eq_true hts.2]
          rfl
        rw [if_neg hne, hupd, if_pos hprev, List.find?_cons, hpred]
        rfl
      · have hupd : (updateEntry now r e0).previousPrice = e0.previousPrice := by
          rw [updateEntry_prev, if_neg (fun hh => hts ⟨hh.1, hh.2.1⟩)]
        have hz : (updateEntry now r e0).previousPrice = 0 := by rw [hupd]; exact hprev
        have hpred : (decide (r.recorded_at < now - 7) &&
            decide (now - 14 ≤ r.recorded_at)) = false := by
          by_cases hA : r.recorded_at < now - 7
          · have hB : ¬ now - 14 ≤ r.recorded_at := fun hB => hts ⟨hA, hB⟩
            rw [decide_eq_false hB, Bool.and_false]
          · rw [decide_eq_false hA, Bool.false_and]
        rw [if_pos hz, if_pos hprev, List.find?_cons, hpred]
    · have hne : ¬ ((updateEntry now r e0).previousPrice = 0) := by
        rw [updateEntry_prev, if_neg (fun hh => hprev hh.2.2)]; exact hprev
      rw [if_neg hne, if_neg hprev, updateEntry_prev, if_neg (fun hh => hprev hh.2.2)]

theorem gainRun_fields (now : ℤ) (fl : List CardPriceWithCard) (e : ChangeEntry)
    (h : gainRun now fl = some e) (hpos : ∀ r ∈ fl, 0 < r.price) :
    e.currentPrice =
      priceOfOpt (fl.find? (fun r => decide (now - 7 ≤ r.recorded_at))) ∧
    e.previousPrice =
      priceOfOpt (fl.find? (fun r =>
        decide (r.recorded_at < now - 7) && decide (now - 14 ≤ r.recorded_at))) ∧
    e.change = 0 ∧ e.changePercent = 0 := by
  cases fl with
  | nil => cases h
  | cons r rs =>
    have heq : e = (r :: rs).foldl (fun e x => updateEntry now x e)
        ⟨r.cards, 0, 0, 0, 0⟩ := by
      have : gainRun now (r :: rs) =
          some ((r :: rs).foldl (fun e x => updateEntry now x e)
            ⟨r.cards, 0, 0, 0, 0⟩) := rfl
      rw [this] at h
      injection h with h
      exact h.symm
    subst heq
    refine ⟨?_, ?_, ?_, ?_⟩
    · rw [foldl_updateEntry_cur now (r :: rs) _ hpos]
      rfl
    · rw [foldl_updateEntry_prev now (r :: rs) _ hpos]
      rfl
    · rw [foldl_updateEntry_change]
    · rw [foldl_updateEntry_changePercent]

theorem find?_congr {α : Type} (l : List α) (p q : α → Bool)
    (h : ∀ x ∈ l, p x = q x) : l.find? p = l.find? q := by
  induction l with
  | nil => rfl
  | cons a as ih =>
    rw [List.find?_cons, List.find?_cons, h a (List.mem_cons_self a as),
      ih (fun x hx => h x (List.mem_cons_of_mem _ hx))]

theorem specCurrent_eq_code (now : ℤ) (data : List CardPriceWithCard) (k : String)
    (hwin : ∀ r ∈ data, r.recorded_at ≤ now) :
    specCurrent now data k =
      (data.filter (fun r => priceKey r == k)).find?
        (fun r => decide (now - 7 ≤ r.recorded_at)) := by
  unfold specCurrent
  apply find?_congr
  intro x hx
  have hxd : x ∈ data := (List.mem_filter.mp hx).1
  simp [hwin x hxd]

theorem specPrevious_eq_code (now : ℤ) (data : List CardPriceWithCard) (k : String) :
    specPrevious now data k =
      (data.filter (fun r => priceKey r == k)).find?
        (fun r => decide (r.recorded_at < now - 7) && decide (now - 14 ≤ r.recorded_at)) := by
  unfold specPrevious
  apply find?_congr
  intro x hx
  exact Bool.and_comm _ _

/-- C1: scanning the last-14-days record set newest-first, each key's
`currentPrice` is the price of the first record within `[now-7, now]` and its
`previousPrice` the price of the first record within `[now-14, now-7)`; a key
lacking either value is excluded from the candidate list, and every candidate
carries `change = current - previous` and
`changePercent = change / previous * 100`.  Hypotheses: the scanned records
lie in the queried 14-day window and prices are positive (the data model's
invariant, enforced on insert). -/

theorem top_gainers_buckets (now : ℤ) (data : List CardPriceWithCard)
    (hwin : ∀ r ∈ data, now - 14 ≤ r.recorded_at ∧ r.recorded_at ≤ now)
    (hpos : ∀ r ∈ data, 0 < r.price) :
    (∀ k e, mapLookup (gainMap now data) k = some e →
      e.currentPrice = priceOfOpt (specCurrent now data k) ∧
      e.previousPrice = priceOfOpt (specPrevious now data k)) ∧
    (∀ e ∈ topGainerCandidates now data,
      (0 < e.currentPrice ∧ 0 < e.previousPrice) ∧
      e.change = e.currentPrice - e.previousPrice ∧
      e.changePercent = (e.currentPrice - e.previousPrice) / e.previousPrice * 100) ∧
    (∀ k e, mapLookup (gainMap now data) k = some e →
      (((specCurrent now data k).isSome ∧ (specPrevious now data k).isSome) ↔
        mkChange e ∈ topGainerCandidates now data)) := by
  have hmain : ∀ k e, mapLookup (gainMap now data) k = some e →
      e.currentPrice = priceOfOpt (specCurrent now data k) ∧
      e.previousPrice = priceOfOpt (specPrevious now data k) := by
    intro k e he
    have hlook : mapLookup (gainMap now data) k =
        gainRun now (data.filter (fun r => priceKey r == k)) :=
      lookup_foldl_gainStep_none now data [] k rfl
    rw [hlook] at he
    have hposf : ∀ r ∈ data.filter (fun r => priceKey r == k), 0 < r.price :=
      fun r hr => hpos r (List.mem_filter.mp hr).1
    obtain ⟨hcur, hprev, -, -⟩ := gainRun_fields now _ e he hposf
    rw [specCurrent_eq_code now data k (fun r hr => (hwin r hr).2),
      specPrevious_eq_code now data k]
    exact ⟨hcur, hprev⟩
  refine ⟨hmain, ?_, ?_⟩
  · intro e he
    obtain ⟨e', he', heq⟩ := List.mem_map.mp he
    have hf := List.mem_filter.mp he'
    have hp2 : 0 < e'.currentPrice ∧ 0 < e'.previousPrice := by
      have := hf.2
      simp only [Bool.and_eq_true, decide_eq_true_eq] at this
      exact this
    rw [← heq]
    exact ⟨⟨hp2.1, hp2.2⟩, rfl, rfl⟩
  · intro k e he
    obtain ⟨hcur, hprev⟩ := hmain k e he
    constructor
    · rintro ⟨hsc, hsp⟩
      obtain ⟨rc, hrc⟩ := Option.isSome_iff_exists.mp hsc
      obtain ⟨rp, hrp⟩ := Option.isSome_iff_exists.mp hsp
      have hrc_mem : rc ∈ data := by
        have h1 : (data.filter (fun r => priceKey r == k)).find?
            (fun r => decide (now - 7 ≤ r.recorded_at) &&
              decide (r.recorded_at ≤ now)) = some rc := hrc
        exact (List.mem_filter.mp (List.mem_of_find?_eq_some h1)).1
      have hrp_mem : rp ∈ data := by
        have h1 : (data.filter (fun r => priceKey r == k)).find?
            (fun r => decide (now - 14 ≤ r.recorded_at) &&
              decide (r.recorded_at < now - 7)) = some rp := hrp
        exact (List.mem_filter.mp (List.mem_of_find?_eq_some h1)).1
      have hcpos : 0 < e.currentPrice := by
        rw [hcur, hrc]
        exact hpos rc hrc_mem
      have hppos : 0 < e.previousPrice := by
        rw [hprev, hrp]
        exact hpos rp hrp_mem
      have hkm : (k, e) ∈ gainMap now data := mapLookup_some_mem he
      have hem : e ∈ (gainMap now data).map Prod.snd :=
        List.mem_map.mpr ⟨(k, e), hkm, rfl⟩
      have hef : e ∈ ((gainMap now data).map Prod.snd).filter
          (fun e => decide (0 < e.currentPrice) && decide (0 < e.previousPrice)) :=
        List.mem_filter.mpr ⟨hem, by
          rw [decide_eq_true hcpos, decide_eq_true hppos]; rfl⟩
      exact List.mem_map.mpr ⟨e, hef, rfl⟩
    · intro hmem
      obtain ⟨e', he', heq⟩ := List.mem_map.mp hmem
      have hf := List.mem_filter.mp he'
      have hp2 : 0 < e'.currentPrice ∧ 0 < e'.previousPrice := by
        have := hf.2
        simp only [Bool.and_eq_true, decide_eq_true_eq] at this
        exact this
      have hceq : e'.currentPrice = e.currentPrice := by
        have h := congrArg ChangeEntry.currentPrice heq
        exact h
      have hpeq : e'.previousPrice = e.previousPrice := by
        have h := congrArg ChangeEntry.previousPrice heq
        exact h
      have hcpos : 0 < e.currentPrice := hceq ▸ hp2.1
      have hppos : 0 < e.previousPrice := hpeq ▸ hp2.2
      constructor
      · cases hsc : specCurrent now data k with
        | none =>
          rw [hsc] at hcur
          exact absurd (hcur ▸ hcpos) (by simp [priceOfOpt])
        | some rc => rfl
      · cases hsp : specPrevious now data k with
        | none =>
          rw [hsp] at hprev
          exact absurd (hprev ▸ hppos) (by simp [priceOfOpt])
        | some rp => rfl

/-- Witness for C1: current = 110, previous = 100, and the candidate's
`changePercent` is 10. -/

theorem top_gainers_buckets_witness :
    ∃ e, mapLookup (gainMap 20 gainD1) "card1-near_mint" = some e ∧
      e.currentPrice = priceOfOpt (specCurrent 20 gainD1 "card1-near_mint") ∧
      e.currentPrice = 110 ∧ e.previousPrice = 100 ∧
      mkChange e ∈ topGainerCandidates 20 gainD1 ∧
      (mkChange e).changePercent = 10 := by
  have h := top_gainers_buckets 20 gainD1 (by decide) (by decide)
  have hl : mapLookup (gainMap 20 gainD1) "card1-near_mint" =
      some ⟨gainCard1, 110, 100, 0, 0⟩ := by decide
  refine ⟨_, hl, (h.1 _ _ hl).1, by decide, by decide,
    (h.2.2 _ _ hl).mp (by decide), by norm_num [mkChange]⟩

/-- C8: every element of the top-gainers output carries an empty id, the
constant condition `'near_mint'`, the fixed currency `'EUR'`, and a
`recorded_at` equal to the computation time `now` rather than the underlying
observation's timestamp. -/

theorem top_gainers_output_fields (now : ℤ) (prices : List CardPrice)
    (cards : List CardInfo) (game : Option String) (limit : ℤ) :
    ∀ r ∈ PriceRepository.getTopGainers now prices cards game limit,
      r.id = "" ∧ r.condition = "near_mint" ∧ r.currency = "EUR" ∧
      r.recorded_at = now := by
  intro r hr
  simp only [PriceRepository.getTopGainers] at hr
  split at hr
  · exact absurd hr (List.not_mem_nil r)
  · obtain ⟨e, -, heq⟩ := List.mem_map.mp hr
    rw [← heq]
    exact ⟨rfl, rfl, rfl, rfl⟩

/-- Witness for C8: the single output element has the fixed fields, and its
`recorded_at` (20, the computation time) differs from the source
observation's timestamp (19). -/

theorem top_gainers_output_fields_witness :
    (⟨"", "card1", "near_mint", 110, "EUR", 20, gainCard1⟩ : CardPriceWithCard) ∈
      PriceRepository.getTopGainers 20 gainPrices1 gainCards1 none 10 ∧
    ((⟨"", "card1", "near_mint", 110, "EUR", 20, gainCard1⟩ : CardPriceWithCard).id = "" ∧
      (⟨"", "card1", "near_mint", 110, "EUR", 20, gainCard1⟩ : CardPriceWithCard).condition = "near_mint" ∧
      (⟨"", "card1", "near_mint", 110, "EUR", 20, gainCard1⟩ : CardPriceWithCard).currency = "EUR" ∧
      (⟨"", "card1", "near_mint", 110, "EUR", 20, gainCard1⟩ : CardPriceWithCard).recorded_at = 20) ∧
    (19 : ℤ) ≠ 20 :=
  ⟨by decide,
   top_gainers_output_fields 20 gainPrices1 gainCards1 none 10 _ (by decide),
   by decide⟩

theorem statsPriceStep_other (m : List (String × PriceRef)) (item : CollectionItem)
    {c : String} (hc : ¬ itemKey item = c) :
    mapLookup (statsPriceStep m item) c = mapLookup m c := by
  cases hm : mapLookup m (itemKey item) with
  | none =>
    have h1 : statsPriceStep m item = mapSet m (itemKey item) item.card_prices := by
      simp only [statsPriceStep, hm]
    rw [h1, mapLookup_mapSet, if_neg (fun h => hc h.symm)]
  | some existing =>
    by_cases hlt : existing.recorded_at < item.card_prices.recorded_at
    · have h1 : statsPriceStep m item = mapSet m (itemKey item) item.card_prices := by
        simp only [statsPriceStep, hm, if_pos hlt]
      rw [h1, mapLookup_mapSet, if_neg (fun h => hc h.symm)]
    · have h1 : statsPriceStep m item = m := by
        simp only [statsPriceStep, hm, if_neg hlt]
      rw [h1]

theorem foldl_statsPriceStep_other (l : List CollectionItem)
    (m : List (String × PriceRef)) {c : String}
    (hc : ∀ x ∈ l, ¬ itemKey x = c) :
    mapLookup (l.foldl statsPriceStep m) c = mapLookup m c := by
  induction l generalizing m with
  | nil => rfl
  | cons x xs ih =>
    rw [List.foldl_cons, ih _ (fun y hy => hc y (List.mem_cons_of_mem _ hy)),
      statsPriceStep_other m x (hc x (List.mem_cons_self x xs))]

theorem foldl_statsPriceStep_self (l : List CollectionItem)
    (m : List (String × PriceRef)) (hnd : (l.map itemKey).Nodup)
    (habs : ∀ i ∈ l, mapLookup m (itemKey i) = none) :
    ∀ i ∈ l, mapLookup (l.foldl statsPriceStep m) (itemKey i) =
      some i.card_prices := by
  induction l generalizing m with
  | nil => intro i hi; cases hi
  | cons j rest ih =>
    have hnd' : (rest.map itemKey).Nodup := (List.nodup_cons.mp (by simpa using hnd)).2
    have hjrest : itemKey j ∉ rest.map itemKey :=
      (List.nodup_cons.mp (by simpa using hnd)).1
    have hstep : statsPriceStep m j = mapSet m (itemKey j) j.card_prices := by
      simp only [statsPriceStep, habs j (List.mem_cons_self j rest)]
    intro i hi
    rcases List.mem_cons.mp hi with hi | hi
    · subst hi
      rw [List.foldl_cons, foldl_statsPriceStep_other rest _
        (fun x hx h => hjrest (by rw [← h]; exact List.mem_map.mpr ⟨x, hx, rfl⟩)),
        hstep, mapLookup_mapSet, if_pos rfl]
    · rw [List.foldl_cons]
      apply ih (statsPriceStep m j) hnd' _ i hi
      intro x hx
      have hne : ¬ itemKey x = itemKey j :=
        fun h => hjrest (by rw [← h]; exact List.mem_map.mpr ⟨x, hx, rfl⟩)
      rw [hstep, mapLookup_mapSet, if_neg hne]
      exact habs x (List.mem_cons_of_mem _ hx)

theorem foldl_totalValue (l : List CollectionItem)
    (M : List (String × PriceRef)) (a : ℚ)
    (h : ∀ i ∈ l, mapLookup M (itemKey i) = some i.card_prices) :
    l.foldl (fun acc item =>
      match mapLookup M (itemKey item) with
      | some latestPrice => acc + latestPrice.price * item.quantity
      | none => acc) a =
      a + (l.map (fun i => i.card_prices.price * i.quantity)).sum := by
  induction l generalizing a with
  | nil => simp
  | cons j rest ih =>
    rw [List.foldl_cons]
    have hj := h j (List.mem_cons_self j rest)
    have hstep : (match mapLookup M (itemKey j) with
        | some latestPrice => a + latestPrice.price * j.quantity
        | none => a) = a + j.card_prices.price * j.quantity := by
      rw [hj]
    rw [hstep, ih _ (fun i hi => h i (List.mem_cons_of_mem _ hi)),
      List.map_cons, List.sum_cons]
    ring

/-- C5: when each (card, condition) key appears on exactly one joined row
(the `(user, card, condition)` uniqueness invariant of §3), `totalCards` is
the number of collection entries — each entry counted once regardless of its
quantity — and `totalValue` is the sum over the rows of the resolved latest
price times the row's quantity. -/

theorem collection_stats_totals (entries collections : List CollectionItem)
    (hnd : (collections.map itemKey).Nodup) :
    (CollectionRepository.getCollectionStats entries collections).totalCards =
      entries.length ∧
    (CollectionRepository.getCollectionStats entries collections).totalValue =
      (collections.map (fun i => i.card_prices.price * i.quantity)).sum := by
  by_cases hemp : collections.isEmpty = true
  · have hnil : collections = [] := by simpa using hemp
    subst hnil
    exact ⟨by simp [CollectionRepository.getCollectionStats],
      by simp [CollectionRepository.getCollectionStats]⟩
  · have hsome : ∀ i ∈ collections,
        mapLookup (collections.foldl statsPriceStep []) (itemKey i) =
          some i.card_prices :=
      foldl_statsPriceStep_self collections [] hnd (fun i _ => rfl)
    constructor
    · simp only [CollectionRepository.getCollectionStats, if_neg hemp]
    · simp only [CollectionRepository.getCollectionStats, if_neg hemp]
      rw [foldl_totalValue collections _ 0 hsome, zero_add]

/-- Witness for C5: the spec's example — entries [(A, qty 2, price 10),
(B, qty 1, price 50)] give totalCards = 2 and totalValue = 70. -/

theorem collection_stats_totals_witness :
    (CollectionRepository.getCollectionStats [entryA, entryB]
      [entryA, entryB]).totalCards = 2 ∧
    (CollectionRepository.getCollectionStats [entryA, entryB]
      [entryA, entryB]).totalValue = 70 := by
  have h := collection_stats_totals [entryA, entryB] [entryA, entryB] (by decide)
  refine ⟨h.1.trans (by decide), h.2.trans ?_⟩
  norm_num [entryA, entryB]

/-- C9: for every count-query result and every joined row set, the stats
`topGainer` field is the hardcoded placeholder
`{ name: "Dark Magician", change: 8.2 }` — it is never computed from price
data. -/

theorem collection_stats_placeholder_gainer
    (entries collections : List CollectionItem) :
    (CollectionRepository.getCollectionStats entries collections).topGainer =
      ⟨"Dark Magician", 8.2⟩ := by
  by_cases hemp : collections.isEmpty = true
  · simp only [CollectionRepository.getCollectionStats, if_pos hemp]
  · simp only [CollectionRepository.getCollectionStats, if_neg hemp]

theorem contains_eq_true_of_mem {l : List String} {s : String} (h : s ∈ l) :
    l.contains s = true :=
  List.elem_iff.mpr h

theorem contains_eq_false_of_not_mem {l : List String} {s : String} (h : s ∉ l) :
    l.contains s = false := by
  cases hc : l.contains s with
  | false => rfl
  | true => exact absurd (List.elem_iff.mp hc) h

/-- C3 counterexample: a request failing the 365-day validation receives
status 500 (the catch-all), not 400. -/

theorem validation_status_cex :
    (PriceController.handleRequest 0 [] [] reqDays400).status = 500 ∧
    (PriceController.handleRequest 0 [] [] reqDays400).status ≠ 400 ∧
    (PriceController.handleRequest 0 [] [] reqDays400).body =
      .errorMsg "Cannot fetch price history for more than 365 days" :=
  ⟨by rfl, by decide, by rfl⟩

theorem exceptToResponse_status_ne {α : Type} (f : α → RespBody) (s : ℕ)
    (r : Except String α) (hs : s ≠ 400) :
    (exceptToResponse f s r).status ≠ 400 := by
  cases r with
  | error msg =>
    intro hh
    exact absurd (show (500 : ℕ) = 400 from hh) (by decide)
  | ok a => exact hs

theorem cardRespond_status_ne {α : Type} (f : α → RespBody) (s : ℕ)
    (r : Except String α) (hs : s ≠ 400) :
    (cardRespond f s r).status ≠ 400 := by
  cases r with
  | error msg =>
    intro hh
    have hh' : cardErrorStatus msg = 400 := hh
    simp only [cardErrorStatus] at hh'
    by_cases hmsg : msg = "Card not found"
    · rw [if_pos hmsg] at hh'
      exact absurd hh' (by decide)
    · rw [if_neg hmsg] at hh'
      exact absurd hh' (by decide)
  | ok a => exact hs

/-- C3 (amended): only the prices controller's inline missing-parameter
checks respond with 400 (and every one of its 400s comes from a missing
`card_id`/`condition`); every validation failure thrown in a service layer —
history day count over 365 or invalid condition, top-gainers limit over 50
or invalid game, non-positive price, non-positive collection quantity,
invalid game on card creation — is surfaced by the catch-all with status
500; the cards and collections controllers never return 400 at all; and the
cards controller maps the `Card not found` error of an unknown card id to
status 404. -/

theorem validation_error_status_mapping (now : ℤ) (prices : List CardPrice)
    (cards : List CardInfo) (cardRows : List CardRow)
    (ucTable : List UserCollection) (entries collections : List CollectionItem) :
    (∀ ps cid cond days game lim,
      "top-gainers" ∉ ps → "history" ∈ ps → (cid = "" ∨ cond = "") →
      (PriceController.handleRequest now prices cards
        ⟨"GET", ps, some cid, some cond, days, game, lim, none, none⟩).status
        = 400) ∧
    (∀ ps cond days game lim,
      "top-gainers" ∉ ps → "history" ∉ ps →
      (PriceController.handleRequest now prices cards
        ⟨"GET", ps, none, cond, days, game, lim, none, none⟩).status = 400) ∧
    (∀ ps cid cond days game lim,
      "top-gainers" ∉ ps → "history" ∈ ps → cid ≠ "" → cond ≠ "" → 365 < days →
      (PriceController.handleRequest now prices cards
        ⟨"GET", ps, some cid, some cond, some days, game, some lim, none,
          none⟩).status = 500) ∧
    (∀ ps cid cond days game lim,
      "top-gainers" ∉ ps → "history" ∈ ps → cid ≠ "" → cond ≠ "" →
      days ≤ 365 → cond ∉ validConditions →
      (PriceController.handleRequest now prices cards
        ⟨"GET", ps, some cid, some cond, some days, game, lim, none,
          none⟩).status = 500) ∧
    (∀ ps game lim, "top-gainers" ∈ ps → 50 < lim →
      (PriceController.handleRequest now prices cards
        ⟨"GET", ps, none, none, none, game, some lim, none, none⟩).status
        = 500) ∧
    (∀ ps g lim, "top-gainers" ∈ ps → g ∉ validGames →
      (PriceController.handleRequest now prices cards
        ⟨"GET", ps, none, none, none, some g, lim, none, none⟩).status
        = 500) ∧
    (∀ b : AddPriceBody, b.card_id ≠ "" → b.condition ≠ "" → b.price ≤ 0 →
      (PriceController.handleRequest now prices cards
        ⟨"POST", [], none, none, none, none, none, some b, none⟩).status
        = 500) ∧
    (∀ b : AddPriceBody, b.card_id ≠ "" → b.condition ≠ "" → 0 < b.price →
      b.condition ∉ validConditions →
      (PriceController.handleRequest now prices cards
        ⟨"POST", [], none, none, none, none, none, some b, none⟩).status
        = 500) ∧
    (∀ req : PriceRequest,
      (PriceController.handleRequest now prices cards req).status = 400 →
      req.cardIdParam.getD "" = "" ∨ req.conditionParam.getD "" = "") ∧
    (∀ req : CardRequest,
      (CardController.handleRequest cardRows prices req).status ≠ 400) ∧
    (∀ req : CollectionRequest,
      (CollectionController.handleRequest now cards ucTable entries collections
        req).status ≠ 400) ∧
    (∀ (uid : String) (b : AddCollectionBody),
      uid ≠ "" → b.card_id ≠ "" → b.quantity ≤ 0 →
      (CollectionController.handleRequest now cards ucTable entries collections
        ⟨"POST", [], true, some uid, some b, none⟩).status = 500) ∧
    (∀ (ps : List String) (cid : String),
      1 < ps.length → ps.getLast? = some cid → cid ≠ "" →
      (∀ c ∈ cardRows, c.id ≠ cid) →
      (CardController.handleRequest cardRows prices
        ⟨"GET", ps, none, none, false, none, none, none, none, none⟩).status
        = 404) ∧
    (∀ b : CreateCardBody, strTrim b.name ≠ "" → b.game ∉ validGames →
      (CardController.handleRequest cardRows prices
        ⟨"POST", [], none, none, false, none, none, none, some b,
          none⟩).status = 500) := by
  refine ⟨?_, ?_, ?_, ?_, ?_, ?_, ?_, ?_, ?_, ?_, ?_, ?_, ?_, ?_⟩
  · intro ps cid cond days game lim htg hh hcc
    have h1 := contains_eq_false_of_not_mem htg
    have h2 := contains_eq_true_of_mem hh
    simp only [PriceController.handleRequest, h1, h2, Option.getD_some,
      Bool.false_eq_true, if_false, if_true, eq_self_iff_true]
    rw [if_pos hcc]
  · intro ps cond days game lim htg hh
    have h1 := contains_eq_false_of_not_mem htg
    have h2 := contains_eq_false_of_not_mem hh
    simp only [PriceController.handleRequest, h1, h2, Bool.false_eq_true,
      if_false, if_true, eq_self_iff_true, Option.getD_none]
  · intro ps cid cond days game lim htg hh hcid hcond hd
    have h1 := contains_eq_false_of_not_mem htg
    have h2 := contains_eq_true_of_mem hh
    have hserv : PriceService.getPriceHistory now prices cid cond days =
        .error "Cannot fetch price history for more than 365 days" := by
      unfold PriceService.getPriceHistory
      rw [if_neg (not_or.mpr ⟨hcid, hcond⟩), if_pos hd]
    simp only [PriceController.handleRequest, h1, h2, Option.getD_some,
      Bool.false_eq_true, if_false, if_true, eq_self_iff_true]
    rw [if_neg (not_or.mpr ⟨hcid, hcond⟩), hserv]
    rfl
  · intro ps cid cond days game lim htg hh hcid hcond hdle hinv
    have h1 := contains_eq_false_of_not_mem htg
    have h2 := contains_eq_true_of_mem hh
    have hserv : PriceService.getPriceHistory now prices cid cond days =
        .error "Invalid card condition" := by
      unfold PriceService.getPriceHistory
      rw [if_neg (not_or.mpr ⟨hcid, hcond⟩), if_neg (not_lt.mpr hdle),
        if_pos hinv]
    simp only [PriceController.handleRequest, h1, h2, Option.getD_some,
      Bool.false_eq_true, if_false, if_true, eq_self_iff_true]
    rw [if_neg (not_or.mpr ⟨hcid, hcond⟩), hserv]
    rfl
  · intro ps game lim htg hlim
    have h1 := contains_eq_true_of_mem htg
    obtain ⟨msg, hserv⟩ : ∃ msg,
        PriceService.getTopGainers now prices cards game lim = .error msg := by
      unfold PriceService.getTopGainers
      by_cases hg : gameValid game
      · rw [if_neg (not_not_intro hg), if_pos hlim]
        exact ⟨_, rfl⟩
      · rw [if_pos hg]
        exact ⟨_, rfl⟩
    simp only [PriceController.handleRequest, h1, Option.getD_some, if_true,
      eq_self_iff_true]
    rw [hserv]
    rfl
  · intro ps g lim htg hg
    have h1 := contains_eq_true_of_mem htg
    have hserv : PriceService.getTopGainers now prices cards (some g)
        (lim.getD 10) = .error "Invalid game type" := by
      unfold PriceService.getTopGainers
      rw [if_pos (show ¬ gameValid (some g) from hg)]
    simp only [PriceController.handleRequest, h1, if_true, eq_self_iff_true]
    rw [hserv]
    rfl
  · intro b hcid hcond hple
    have hserv : PriceService.addPrice now b =
        .error "Price must be greater than 0" := by
      unfold PriceService.addPrice
      rw [if_neg (not_or.mpr ⟨hcid, hcond⟩), if_pos hple]
    have hm : ¬ (("POST" : String) = "GET") := by decide
    simp only [PriceController.handleRequest, hm, if_false, if_true,
      eq_self_iff_true, hserv]
    rfl
  · intro b hcid hcond hpos hinv
    have hserv : PriceService.addPrice now b =
        .error "Invalid card condition" := by
      unfold PriceService.addPrice
      rw [if_neg (not_or.mpr ⟨hcid, hcond⟩), if_neg (not_le.mpr hpos),
        if_pos hinv]
    have hm : ¬ (("POST" : String) = "GET") := by decide
    simp only [PriceController.handleRequest, hm, if_false, if_true,
      eq_self_iff_true, hserv]
    rfl
  · intro req h
    simp only [PriceController.handleRequest] at h
    by_cases hm1 : req.method = "GET"
    · rw [if_pos hm1] at h
      by_cases htg : req.pathSegments.contains "top-gainers" = true
      · rw [if_pos htg] at h
        exact absurd h (exceptToResponse_status_ne _ _ _ (by decide))
      · rw [if_neg htg] at h
        by_cases hh2 : req.pathSegments.contains "history" = true
        · rw [if_pos hh2] at h
          by_cases hcc : req.cardIdParam.getD "" = "" ∨
              req.conditionParam.getD "" = ""
          · exact hcc
          · rw [if_neg hcc] at h
            exact absurd h (exceptToResponse_status_ne _ _ _ (by decide))
        · rw [if_neg hh2] at h
          by_cases hc : req.cardIdParam.getD "" = ""
          · exact Or.inl hc
          · rw [if_neg hc] at h
            exact absurd h (exceptToResponse_status_ne _ _ _ (by decide))
    · rw [if_neg hm1] at h
      by_cases hm2 : req.method = "POST"
      · rw [if_pos hm2] at h
        cases hb : req.postBody with
        | none =>
          rw [hb] at h
          exact absurd (show (500 : ℕ) = 400 from h) (by decide)
        | some b =>
          rw [hb] at h
          exact absurd h (exceptToResponse_status_ne _ _ _ (by decide))
      · rw [if_neg hm2] at h
        by_cases hm3 : req.method = "PUT"
        · rw [if_pos hm3] at h
          cases hb : req.putBody with
          | none =>
            rw [hb] at h
            exact absurd (show (500 : ℕ) = 400 from h) (by decide)
          | some b =>
            rw [hb] at h
            exact absurd h (exceptToResponse_status_ne _ _ _ (by decide))
        · rw [if_neg hm3] at h
          by_cases hm4 : req.method = "DELETE"
          · rw [if_pos hm4] at h
            exact absurd h (exceptToResponse_status_ne _ _ _ (by decide))
          · rw [if_neg hm4] at h
            exact absurd (show (405 : ℕ) = 400 from h) (by decide)
  · intro req
    simp only [CardController.handleRequest]
    by_cases hm1 : req.method = "GET"
    · rw [if_pos hm1]
      by_cases hlen : 1 < req.pathSegments.length
      · rw [if_pos hlen]
        exact cardRespond_status_ne _ _ _ (by decide)
      · rw [if_neg hlen]
        by_cases hset : (req.setParam.getD "") = ""
        · rw [if_pos hset]
          exact cardRespond_status_ne _ _ _ (by decide)
        · rw [if_neg hset]
          exact cardRespond_status_ne _ _ _ (by decide)
    · rw [if_neg hm1]
      by_cases hm2 : req.method = "POST"
      · rw [if_pos hm2]
        cases hb : req.createBody with
        | none =>
          intro hh
          exact absurd (show (500 : ℕ) = 400 from hh) (by decide)
        | some b => exact cardRespond_status_ne _ _ _ (by decide)
      · rw [if_neg hm2]
        by_cases hm3 : req.method = "PUT"
        · rw [if_pos hm3]
          cases hb : req.updateBody with
          | none =>
            intro hh
            exact absurd (show (500 : ℕ) = 400 from hh) (by decide)
          | some b => exact cardRespond_status_ne _ _ _ (by decide)
        · rw [if_neg hm3]
          by_cases hm4 : req.method = "DELETE"
          · rw [if_pos hm4]
            exact cardRespond_status_ne _ _ _ (by decide)
          · rw [if_neg hm4]
            intro hh
            exact absurd (show (405 : ℕ) = 400 from hh) (by decide)
  · intro req
    simp only [CollectionController.handleRequest]
    by_cases hauth : req.hasAuthHeader = false
    · rw [if_pos hauth]
      intro hh
      exact absurd (show (401 : ℕ) = 400 from hh) (by decide)
    · rw [if_neg hauth]
      by_cases hnone : req.authUser.isNone = true
      · rw [if_pos hnone]
        intro hh
        exact absurd (show (401 : ℕ) = 400 from hh) (by decide)
      · rw [if_neg hnone]
        by_cases hm1 : req.method = "GET"
        · rw [if_pos hm1]
          by_cases hst : req.pathSegments.contains "stats" = true
          · rw [if_pos hst]
            exact exceptToResponse_status_ne _ _ _ (by decide)
          · rw [if_neg hst]
            exact exceptToResponse_status_ne _ _ _ (by decide)
        · rw [if_neg hm1]
          by_cases hm2 : req.method = "POST"
          · rw [if_pos hm2]
            cases hb : req.addBody with
            | none =>
              intro hh
              exact absurd (show (500 : ℕ) = 400 from hh) (by decide)
            | some b => exact exceptToResponse_status_ne _ _ _ (by decide)
          · rw [if_neg hm2]
            by_cases hm3 : req.method = "PUT"
            · rw [if_pos hm3]
              cases hb : req.updateBody with
              | none =>
                intro hh
                exact absurd (show (500 : ℕ) = 400 from hh) (by decide)
              | some b => exact exceptToResponse_status_ne _ _ _ (by decide)
            · rw [if_neg hm3]
              by_cases hm4 : req.method = "DELETE"
              · rw [if_pos hm4]
                exact exceptToResponse_status_ne _ _ _ (by decide)
              · rw [if_neg hm4]
                intro hh
                exact absurd (show (405 : ℕ) = 400 from hh) (by decide)
  · intro uid b huid hcard hq
    have hserv : CollectionService.addCardToCollection now uid b =
        .error "Quantity must be greater than 0" := by
      unfold CollectionService.addCardToCollection
      rw [if_neg (not_or.mpr ⟨huid, hcard⟩), if_pos hq]
    have hm : ¬ (("POST" : String) = "GET") := by decide
    have hb : ¬ ((true : Bool) = false) := by decide
    simp only [CollectionController.handleRequest, hm, hb, if_false, if_true,
      eq_self_iff_true, Option.isNone_some, Bool.false_eq_true,
      Option.getD_some, hserv]
    rfl
  · intro ps cid hlen hlast hne hnotin
    have hfind : CardRepository.getCardById cardRows cid = none := by
      unfold CardRepository.getCardById
      rw [List.find?_eq_none]
      intro c hc
      simp only [beq_iff_eq]
      exact hnotin c hc
    have hserv : CardService.getCardById cardRows cid =
        .error "Card not found" := by
      unfold CardService.getCardById
      rw [if_neg hne, hfind]
    simp only [CardController.handleRequest, eq_self_iff_true, if_true]
    rw [if_pos hlen, hlast]
    simp only [Option.getD_some]
    rw [hserv]
    rfl
  · intro b hname hg
    have hserv : CardService.createCard b = .error "Invalid game type" := by
      unfold CardService.createCard
      rw [if_neg hname, if_pos hg]
    have hm : ¬ (("POST" : String) = "GET") := by decide
    simp only [CardController.handleRequest, hm, if_false, if_true,
      eq_self_iff_true, hserv]
    rfl

/-- Witness for the amended C3 at concrete requests: missing-parameter
history and latest requests get 400; a days-400 history request, an
invalid-condition history request, a limit-60 gainers request, a
game-chess gainers request, a POST with price 0, a POST with an invalid
condition, a collections POST with quantity -1, and a card creation with
game chess all get 500; a GET for an unknown card id gets 404; the prices
controller's one 400 above indeed has a missing parameter; and DELETE
requests to the cards and collections controllers do not get 400. -/

theorem validation_error_status_mapping_witness :
    (PriceController.handleRequest 0 [] []
      ⟨"GET", ["prices", "history"], some "", some "mint", some 30, none,
        none, none, none⟩).status = 400 ∧
    (PriceController.handleRequest 0 [] []
      ⟨"GET", ["prices"], none, none, none, none, none, none, none⟩).status
      = 400 ∧
    (PriceController.handleRequest 0 [] []
      ⟨"GET", ["prices", "history"], some "c1", some "mint", some 400, none,
        some 10, none, none⟩).status = 500 ∧
    (PriceController.handleRequest 0 [] []
      ⟨"GET", ["prices", "history"], some "c1", some "bogus", some 30, none,
        none, none, none⟩).status = 500 ∧
    (PriceController.handleRequest 0 [] []
      ⟨"GET", ["prices", "top-gainers"], none, none, none, none, some 60,
        none, none⟩).status = 500 ∧
    (PriceController.handleRequest 0 [] []
      ⟨"GET", ["prices", "top-gainers"], none, none, none, some "chess",
        some 10, none, none⟩).status = 500 ∧
    (PriceController.handleRequest 0 [] []
      ⟨"POST", [], none, none, none, none, none,
        some ⟨"c1", "mint", 0, none, none⟩, none⟩).status = 500 ∧
    (PriceController.handleRequest 0 [] []
      ⟨"POST", [], none, none, none, none, none,
        some ⟨"c1", "bogus", 5, none, none⟩, none⟩).status = 500 ∧
    ((none : Option String).getD "" = "" ∨
      (some "mint" : Option String).getD "" = "") ∧
    (CollectionController.handleRequest 0 [] [] [] []
      ⟨"POST", [], true, some "u1", some ⟨"c1", "mint", -1, none, none⟩,
        none⟩).status = 500 ∧
    (CardController.handleRequest [] []
      ⟨"GET", ["cards", "cx"], none, none, false, none, none, none, none,
        none⟩).status = 404 ∧
    (CardController.handleRequest [] []
      ⟨"POST", [], none, none, false, none, none, none,
        some ⟨"X", "chess", none, none⟩, none⟩).status = 500 ∧
    (CardController.handleRequest [] []
      ⟨"DELETE", ["cards", "cx"], none, none, false, none, none, none, none,
        none⟩).status ≠ 400 ∧
    (CollectionController.handleRequest 0 [] [] [] []
      ⟨"DELETE", ["collections", "x1"], true, some "u1", none,
        none⟩).status ≠ 400 := by
  obtain ⟨p1, p2, p3, p4, p5, p6, p7, p8, p9, p10, p11, p12, p13, p14⟩ :=
    validation_error_status_mapping 0 [] [] [] [] [] []
  refine ⟨?_, ?_, ?_, ?_, ?_, ?_, ?_, ?_, ?_, ?_, ?_, ?_, ?_, ?_⟩
  · exact p1 ["prices", "history"] "" "mint" (some 30) none none (by decide)
      (by decide) (Or.inl rfl)
  · exact p2 ["prices"] none none none none (by decide) (by decide)
  · exact p3 ["prices", "history"] "c1" "mint" 400 none 10 (by decide)
      (by decide) (by decide) (by decide) (by decide)
  · exact p4 ["prices", "history"] "c1" "bogus" 30 none none (by decide)
      (by decide) (by decide) (by decide) (by decide) (by decide)
  · exact p5 ["prices", "top-gainers"] none 60 (by decide) (by decide)
  · exact p6 ["prices", "top-gainers"] "chess" (some 10) (by decide)
      (by decide)
  · exact p7 ⟨"c1", "mint", 0, none, none⟩ (by decide) (by decide) (by decide)
  · exact p8 ⟨"c1", "bogus", 5, none, none⟩ (by decide) (by decide)
      (by decide) (by decide)
  · exact p9 ⟨"GET", ["prices", "history"], none, some "mint", none, none,
      none, none, none⟩ (by decide)
  · exact p12 "u1" ⟨"c1", "mint", -1, none, none⟩ (by decide) (by decide)
      (by decide)
  · exact p13 ["cards", "cx"] "cx" (by decide) (by decide) (by decide)
      (by decide)
  · exact p14 ⟨"X", "chess", none, none⟩ (by decide) (by decide)
  · exact p10 ⟨"DELETE", ["cards", "cx"], none, none, false, none, none,
      none, none, none⟩
  · exact p11 ⟨"DELETE", ["collections", "x1"], true, some "u1", none, none⟩

/-- C7 counterexample: the service accepts the negative limit `-1` (only
`limit > 50` is rejected), and `slice(0, -1)` then drops one element from
the END of the two-element ranked list, so the result has length 1 — which
is not at most the requested limit. -/

theorem top_gainers_limit_cex :
    PriceService.getTopGainers 20 gainPricesC7 gainCards1 none (-1) =
      .ok (PriceRepository.getTopGainers 20 gainPricesC7 gainCards1 none (-1)) ∧
    (PriceRepository.getTopGainers 20 gainPricesC7 gainCards1 none (-1)).length
      = 1 ∧
    ¬ (((PriceRepository.getTopGainers 20 gainPricesC7 gainCards1 none
      (-1)).length : ℤ) ≤ -1) := by
  have hserv : PriceService.getTopGainers 20 gainPricesC7 gainCards1 none (-1) =
      .ok (PriceRepository.getTopGainers 20 gainPricesC7 gainCards1 none (-1)) := by
    unfold PriceService.getTopGainers
    rw [if_neg (by simp [gameValid]), if_neg (by decide)]
  have hc : (topGainerCandidates 20
      (queryGainRecs 20 gainPricesC7 gainCards1 none)).length = 2 := by decide
  have he : (topGainerEntries 20
      (queryGainRecs 20 gainPricesC7 gainCards1 none)).length = 2 :=
    ((List.perm_insertionSort gainDesc _).length_eq).trans hc
  have hne : ¬ ((queryGainRecs 20 gainPricesC7 gainCards1 none).isEmpty = true) :=
    by decide
  have hrepo : (PriceRepository.getTopGainers 20 gainPricesC7 gainCards1 none
      (-1)).length = 1 := by
    simp only [PriceRepository.getTopGainers]
    rw [if_neg hne, List.length_map, jsSliceTo, if_neg (by decide),
      List.length_take, he]
    decide
  refine ⟨hserv, hrepo, ?_⟩
  rw [hrepo]
  decide

/-- C7 (amended): the ranked list is sorted descending by `changePercent`;
for a non-negative requested limit the result length is at most the limit
(and at most 50 whenever the limit is); a limit over 50 is rejected with the
`ValidationError` message (for a valid game); and an absent limit parameter
behaves exactly like the default 10.  (A negative limit is accepted and
`slice(0, limit)` instead drops elements from the end — see the
counterexample.) -/

theorem top_gainers_sorted_limited (now : ℤ) (prices : List CardPrice)
    (cards : List CardInfo) (game : Option String) (limit : ℤ) :
    List.Sorted gainDesc
      (topGainerEntries now (queryGainRecs now prices cards game)) ∧
    (0 ≤ limit →
      (PriceRepository.getTopGainers now prices cards game limit).length ≤
        limit.toNat) ∧
    (0 ≤ limit → limit ≤ 50 →
      (PriceRepository.getTopGainers now prices cards game limit).length ≤ 50) ∧
    (gameValid game → 50 < limit →
      PriceService.getTopGainers now prices cards game limit =
        .error "Limit cannot exceed 50") ∧
    (∀ req : PriceRequest, req.limitParam = none →
      PriceController.handleRequest now prices cards req =
        PriceController.handleRequest now prices cards
          { req with limitParam := some 10 }) := by
  have hlen : 0 ≤ limit →
      (PriceRepository.getTopGainers now prices cards game limit).length ≤
        limit.toNat := by
    intro hl
    by_cases hemp : (queryGainRecs now prices cards game).isEmpty = true
    · simp only [PriceRepository.getTopGainers]
      rw [if_pos hemp]
      exact Nat.zero_le _
    · simp only [PriceRepository.getTopGainers]
      rw [if_neg hemp, List.length_map, jsSliceTo, if_pos hl, List.length_take]
      exact min_le_left _ _
  refine ⟨List.sorted_insertionSort gainDesc _, hlen, ?_, ?_, ?_⟩
  · intro hl h50
    exact (hlen hl).trans (by omega)
  · intro hg hlim
    unfold PriceService.getTopGainers
    rw [if_neg (not_not_intro hg), if_pos hlim]
  · intro req hnone
    simp [PriceController.handleRequest, hnone]

/-- Witness for the amended C7: at limit 3 the single-gainer result has
length ≤ 3 and ≤ 50, and limit 60 is rejected. -/

theorem top_gainers_sorted_limited_witness :
    List.Sorted gainDesc
      (topGainerEntries 20 (queryGainRecs 20 gainPrices1 gainCards1 none)) ∧
    (PriceRepository.getTopGainers 20 gainPrices1 gainCards1 none 3).length ≤ 3 ∧
    (PriceRepository.getTopGainers 20 gainPrices1 gainCards1 none 3).length ≤ 50 ∧
    PriceService.getTopGainers 20 gainPrices1 gainCards1 none 60 =
      .error "Limit cannot exceed 50" := by
  have h3 := top_gainers_sorted_limited 20 gainPrices1 gainCards1 none 3
  have h60 := top_gainers_sorted_limited 20 gainPrices1 gainCards1 none 60
  exact ⟨h3.1, h3.2.1 (by decide), h3.2.2.1 (by decide) (by decide),
    h60.2.2.2.1 (by decide) (by decide)⟩
